import Mathlib

/-!
Shallow embedding of the VraenApp backend (Express + Prisma purchase-tracking
server). The parts embedded here are the ones the verified claims are about:

* `src/utils/transactionHelpers.js` — `calculateBalances` (balance engine);
* `src/routes/transactions.js` — create (calculatedTotal), close, update,
  add-advance, add-delivery routes;
* `src/routes/sync.js` — `POST /api/sync/push`, `GET /api/sync/pull` and the
  SyncLog rows they write.

Modelling conventions:
* JS numbers are modelled as `Rat` (the numeric code is plain arithmetic);
* timestamps (`Date` values, compared with `<`/`>` which in JS compares the
  underlying millisecond values) are modelled as `Int` milliseconds;
* nullable columns are `Option`;
* the Prisma store is a record of lists of rows (`DB`); `findFirst` is
  `List.find?`, `updateMany`/`update` map over the list, `create` appends.
  A `create` fails (throws, caught by the per-record handler in the push
  loops) when the primary key already exists, and — for transactions — when
  the `providerId` foreign key does not resolve; these are the error sources
  the push per-record `catch` observes deterministically.
* the outer try/catch of the push handler is reachable when the final
  audit-log write itself fails; this is modelled by the `logOk` flag of
  `pushHandler`.
-/

namespace VraenApp

/-- Transaction status enum from the Prisma schema: `ACTIVE` or `CLOSED`. -/
inductive TxStatus where
  | ACTIVE
  | CLOSED
deriving DecidableEq, Repr

/-- A row of the `Provider` table (id, contact fields, nullable `userId`,
timestamps). -/
structure ProviderRow where
  id : String
  name : String
  email : Option String
  phone : Option String
  address : Option String
  notes : Option String
  userId : Option String
  createdAt : Int
  updatedAt : Int
deriving DecidableEq, Repr

/-- A client-submitted provider record in a push batch (the fields the push
route reads from it). -/
structure ProviderPush where
  id : String
  name : String
  email : Option String
  phone : Option String
  address : Option String
  notes : Option String
  createdAt : Int
  updatedAt : Int
deriving DecidableEq, Repr

/-- A row of the `Transaction` table. -/
structure TransactionRow where
  id : String
  contractNumber : String
  description : Option String
  status : TxStatus
  quantity : Option Rat
  unitPrice : Option Rat
  totalAmount : Option Rat
  userId : String
  providerId : String
  productServiceId : Option String
  transactionDate : Int
  closedAt : Option Int
  createdAt : Int
  updatedAt : Int
deriving DecidableEq, Repr

/-- A client-submitted transaction record in a push batch. -/
structure TransactionPush where
  id : String
  contractNumber : String
  description : Option String
  status : TxStatus
  quantity : Option Rat
  unitPrice : Option Rat
  totalAmount : Option Rat
  providerId : String
  productServiceId : Option String
  transactionDate : Int
  createdAt : Int
  updatedAt : Int
deriving DecidableEq, Repr

/-- A row of the `Advance` table (money movement against a transaction). -/
structure AdvanceRow where
  id : String
  amount : Rat
  description : Option String
  advanceDate : Int
  transactionId : String
deriving DecidableEq, Repr

/-- A row of the `Delivery` table (product movement against a transaction). -/
structure DeliveryRow where
  id : String
  quantity : Rat
  description : Option String
  deliveryDate : Int
  transactionId : String
deriving DecidableEq, Repr

/-- A row of the `Expense` table. Note: the schema has no `userId` column on
expenses; an expense is tied to a user only through its (nullable)
`transactionId`. -/
structure ExpenseRow where
  id : String
  amount : Rat
  description : Option String
  expenseDate : Int
  categoryId : String
  transactionId : Option String
  createdAt : Int
  updatedAt : Int
deriving DecidableEq, Repr

/-- A client-submitted expense record in a push batch. The push route accepts
this collection in the body but contains no loop over it. -/
structure ExpensePush where
  id : String
  amount : Rat
  description : Option String
  categoryId : String
  transactionId : Option String
  createdAt : Int
  updatedAt : Int
deriving DecidableEq, Repr

/-- A row of the `ExpenseCategory` table. -/
structure CategoryRow where
  id : String
  name : String
  isDefault : Bool
  userId : Option String
deriving DecidableEq, Repr

/-- A row of the `SyncLog` table (append-only audit record). -/
structure SyncLogRow where
  userId : String
  syncType : String
  recordsCount : Nat
  status : String
  errorMessage : Option String
deriving DecidableEq, Repr

/-- The persistent store: one list of rows per table touched by the embedded
routes. -/
structure DB where
  providers : List ProviderRow
  transactions : List TransactionRow
  advances : List AdvanceRow
  deliveries : List DeliveryRow
  expenses : List ExpenseRow
  categories : List CategoryRow
  syncLogs : List SyncLogRow
deriving DecidableEq, Repr

/-! ## Balance engine (`src/utils/transactionHelpers.js`) -/

/-- JS `Math.round` on a rational: floor of `x + 1/2` (round half toward
positive infinity; for the non-negative percentages produced by
`calculateBalances` this is standard half-up rounding). -/
def mathRound (x : Rat) : Int :=
  ⌊x + 1 / 2⌋

/-- Round via `Math.round(x * 100) / 100` — round to two decimal places as the source
does for the progress percentages. -/
def round2 (x : Rat) : Rat :=
  (mathRound (x * 100) : Rat) / 100

/-- JS truthiness of a nullable number: `null` and `0` are falsy. -/
def truthy : Option Rat → Bool
  | none => false
  | some v => v != 0

/-- JS `option > 0` comparison: `null > 0` is false. -/
def gtZero : Option Rat → Bool
  | none => false
  | some v => decide (0 < v)

/-- Output shape of `calculateBalances`. -/
structure Balances where
  totalAdvances : Rat
  totalDelivered : Rat
  moneyBalance : Rat
  productBalance : Rat
  moneyProgress : Rat
  productProgress : Rat
deriving DecidableEq, Repr

/-- Embeds `calculateBalances(transaction, advances, deliveries)` from
`src/utils/transactionHelpers.js`: sum advance amounts and delivery
quantities, subtract from `totalAmount || 0` and `quantity || 0`, and compute
two-decimal progress percentages (zero when the denominator is not `> 0`). -/
def calculateBalances (t : TransactionRow) (advances : List AdvanceRow)
    (deliveries : List DeliveryRow) : Balances :=
  let totalAdvances := advances.foldl (fun s a => s + a.amount) 0
  let totalDelivered := deliveries.foldl (fun s d => s + d.quantity) 0
  let moneyBalance := t.totalAmount.getD 0 - totalAdvances
  let productBalance := t.quantity.getD 0 - totalDelivered
  let moneyProgress :=
    if gtZero t.totalAmount then totalAdvances / t.totalAmount.getD 0 * 100 else 0
  let productProgress :=
    if gtZero t.quantity then totalDelivered / t.quantity.getD 0 * 100 else 0
  { totalAdvances := totalAdvances
    totalDelivered := totalDelivered
    moneyBalance := moneyBalance
    productBalance := productBalance
    moneyProgress := round2 moneyProgress
    productProgress := round2 productProgress }

/-- Embeds `totalAmount || (quantity && unitPrice ? quantity * unitPrice : null)`
from `POST /api/transactions`: the stored total is the client-supplied total
when truthy, else quantity times unit price when both are truthy, else null. -/
def calculatedTotal (totalAmount quantity unitPrice : Option Rat) : Option Rat :=
  if truthy totalAmount then totalAmount
  else if truthy quantity && truthy unitPrice then
    some (quantity.getD 0 * unitPrice.getD 0)
  else none

/-! ## Sync reconciler (`src/routes/sync.js`) -/

/-- Outcome of processing one record of a push batch. -/
inductive StepOutcome where
  | created
  | updated
  | skipped
  | errored (id : String) (msg : String)
deriving DecidableEq, Repr

/-- Per-collection push result: `{created, updated, errors[]}` with errors as
(record id, message) pairs. -/
structure CollResult where
  created : Nat
  updated : Nat
  errors : List (String × String)
deriving DecidableEq, Repr

/-- Initial per-collection result `{created: 0, updated: 0, errors: []}`. -/
def CollResult.empty : CollResult :=
  { created := 0, updated := 0, errors := [] }

/-- Fold one step outcome into the result accumulated for the rest of the
batch (the outcome's error, if any, precedes the later ones). -/
def StepOutcome.consInto : StepOutcome → CollResult → CollResult
  | .created, r => { r with created := r.created + 1 }
  | .updated, r => { r with updated := r.updated + 1 }
  | .skipped, r => r
  | .errored i m, r => { r with errors := (i, m) :: r.errors }

/-- Embeds `prisma.provider.findFirst` with `where: id, userId`. -/
def findProvider (db : DB) (pid uid : String) : Option ProviderRow :=
  db.providers.find? (fun r => r.id == pid && r.userId == some uid)

/-- The field-set overwrite performed by `prisma.provider.update` in the push
loop: name, email, phone, address, notes and `updatedAt` come from the client
record; `id`, `userId` and `createdAt` are untouched. -/
def applyProviderUpdate (r : ProviderRow) (p : ProviderPush) : ProviderRow :=
  { r with name := p.name, email := p.email, phone := p.phone,
           address := p.address, notes := p.notes, updatedAt := p.updatedAt }

/-- The row built by `prisma.provider.create` in the push loop: client id and
timestamps verbatim, `userId` forced to the caller. -/
def newProviderRow (uid : String) (p : ProviderPush) : ProviderRow :=
  { id := p.id, name := p.name, email := p.email, phone := p.phone,
    address := p.address, notes := p.notes, userId := some uid,
    createdAt := p.createdAt, updatedAt := p.updatedAt }

/-- Embeds `prisma.provider.update` by id applied to the table: rewrite the
row(s) with the given id. -/
def providerUpdateList (l : List ProviderRow) (p : ProviderPush) :
    List ProviderRow :=
  l.map (fun r => if r.id == p.id then applyProviderUpdate r p else r)

/-- One iteration of the provider push loop: look up `{id, userId}`; if found
update only when the client `updatedAt` is strictly newer, else skip; if
absent create, which fails (per-record error) when the id already exists in
the table (primary-key violation: the id belongs to another user). -/
def syncProviderRecord (uid : String) (db : DB) (p : ProviderPush) :
    DB × StepOutcome :=
  match findProvider db p.id uid with
  | some existing =>
      if existing.updatedAt < p.updatedAt then
        ({ db with providers := providerUpdateList db.providers p }, .updated)
      else (db, .skipped)
  | none =>
      if db.providers.any (fun r => r.id == p.id) then
        (db, .errored p.id "Unique constraint failed on the fields: (id)")
      else
        ({ db with providers := db.providers ++ [newProviderRow uid p] },
         .created)

/-- The provider loop of `POST /api/sync/push`: records processed in order,
per-record outcomes accumulated into a `CollResult`. -/
def pushProviders (uid : String) : List ProviderPush → DB → DB × CollResult
  | [], db => (db, CollResult.empty)
  | p :: rest, db =>
      let step := syncProviderRecord uid db p
      let restRes := pushProviders uid rest step.1
      (restRes.1, step.2.consInto restRes.2)

/-- Embeds `prisma.transaction.findFirst` with `where: id, userId`. -/
def findTransaction (db : DB) (tid uid : String) : Option TransactionRow :=
  db.transactions.find? (fun r => r.id == tid && r.userId == uid)

/-- The field-set overwrite performed by `prisma.transaction.update` in the
push loop: description, quantity, unitPrice, totalAmount, status and
`updatedAt` come from the client record (status is written verbatim). -/
def applyTransactionUpdate (r : TransactionRow) (t : TransactionPush) :
    TransactionRow :=
  { r with description := t.description, quantity := t.quantity,
           unitPrice := t.unitPrice, totalAmount := t.totalAmount,
           status := t.status, updatedAt := t.updatedAt }

/-- The row built by `prisma.transaction.create` in the push loop: client id,
fields and timestamps verbatim, `userId` forced to the caller, `closedAt`
left at its null default. -/
def newTransactionRow (uid : String) (t : TransactionPush) : TransactionRow :=
  { id := t.id, contractNumber := t.contractNumber,
    description := t.description, status := t.status,
    quantity := t.quantity, unitPrice := t.unitPrice,
    totalAmount := t.totalAmount, userId := uid, providerId := t.providerId,
    productServiceId := t.productServiceId,
    transactionDate := t.transactionDate, closedAt := none,
    createdAt := t.createdAt, updatedAt := t.updatedAt }

/-- Embeds `prisma.transaction.update` by id applied to the table. -/
def transactionUpdateList (l : List TransactionRow) (t : TransactionPush) :
    List TransactionRow :=
  l.map (fun r => if r.id == t.id then applyTransactionUpdate r t else r)

/-- One iteration of the transaction push loop. The create fails (per-record
error) when the id already exists (primary key) or when `providerId` does not
resolve (foreign key). -/
def syncTransactionRecord (uid : String) (db : DB) (t : TransactionPush) :
    DB × StepOutcome :=
  match findTransaction db t.id uid with
  | some existing =>
      if existing.updatedAt < t.updatedAt then
        ({ db with transactions := transactionUpdateList db.transactions t },
         .updated)
      else (db, .skipped)
  | none =>
      if db.transactions.any (fun r => r.id == t.id) then
        (db, .errored t.id "Unique constraint failed on the fields: (id)")
      else if !(db.providers.any (fun r => r.id == t.providerId)) then
        (db, .errored t.id "Foreign key constraint failed on the field: providerId")
      else
        ({ db with transactions := db.transactions ++ [newTransactionRow uid t] },
         .created)

/-- The transaction loop of `POST /api/sync/push`. -/
def pushTransactions (uid : String) : List TransactionPush → DB → DB × CollResult
  | [], db => (db, CollResult.empty)
  | t :: rest, db =>
      let step := syncTransactionRecord uid db t
      let restRes := pushTransactions uid rest step.1
      (restRes.1, step.2.consInto restRes.2)

/-- Request body of `POST /api/sync/push` (each collection defaults to `[]`). -/
structure PushBody where
  transactions : List TransactionPush
  providers : List ProviderPush
  expenses : List ExpensePush
deriving DecidableEq, Repr

/-- The `results` object returned by a successful push. -/
structure PushResults where
  transactions : CollResult
  providers : CollResult
  expenses : CollResult
deriving DecidableEq, Repr

/-- Response of the push handler: 200 with results, or the 500 of the outer
catch. -/
inductive PushResponse where
  | ok (results : PushResults)
  | serverError
deriving DecidableEq, Repr

/-- Computes `transactions.length + providers.length + expenses.length` — the
`recordsCount` the push route records on the success path. -/
def totalRecords (body : PushBody) : Nat :=
  body.transactions.length + body.providers.length + body.expenses.length

/-- Embeds `POST /api/sync/push`: run the provider loop, then the transaction loop
(the route contains no loop over `expenses`, so that collection's result
stays at its `{0, 0, []}` initialization), then write one SyncLog row. The
outer catch is reachable when the success-path audit-log write itself throws
(`logOk = false`): the failure log is then written with `recordsCount: 0` and
status `failed`, and a 500 is returned. -/
def pushHandler (uid : String) (body : PushBody) (logOk : Bool) (db : DB) :
    DB × PushResponse :=
  let provRes := pushProviders uid body.providers db
  let txRes := pushTransactions uid body.transactions provRes.1
  let total := totalRecords body
  if logOk then
    ({ txRes.1 with syncLogs := txRes.1.syncLogs ++
        [{ userId := uid, syncType := "push", recordsCount := total,
           status := "success", errorMessage := none }] },
     .ok { transactions := txRes.2, providers := provRes.2,
           expenses := CollResult.empty })
  else
    ({ txRes.1 with syncLogs := txRes.1.syncLogs ++
        [{ userId := uid, syncType := "push", recordsCount := 0,
           status := "failed", errorMessage := some "log write failed" }] },
     .serverError)

/-- The `data` object returned by `GET /api/sync/pull`. -/
structure PullData where
  transactions : List TransactionRow
  providers : List ProviderRow
  expenses : List ExpenseRow
  categories : List CategoryRow
deriving DecidableEq, Repr

/-- Embeds `GET /api/sync/pull`: `lastSync` absent is treated as epoch zero;
transactions and providers are filtered by caller ownership and
`updatedAt > lastSync`; expenses are filtered only by `transactionId: null`
and `updatedAt > lastSync` (the Expense table has no userId column, and the
query adds no user condition); categories are the default ones plus the
caller's, with no checkpoint condition. One SyncLog row is appended, and the
response carries a fresh `syncTimestamp` (`now`). -/
def pullHandler (uid : String) (lastSync : Option Int) (now : Int) (db : DB) :
    DB × PullData × Int :=
  let lastSyncDate := lastSync.getD 0
  let txs := db.transactions.filter
    (fun t => t.userId == uid && decide (lastSyncDate < t.updatedAt))
  let provs := db.providers.filter
    (fun p => p.userId == some uid && decide (lastSyncDate < p.updatedAt))
  let exps := db.expenses.filter
    (fun e => e.transactionId == none && decide (lastSyncDate < e.updatedAt))
  let cats := db.categories.filter
    (fun c => c.isDefault || c.userId == some uid)
  let db' := { db with syncLogs := db.syncLogs ++
      [{ userId := uid, syncType := "pull",
         recordsCount := txs.length + provs.length + exps.length,
         status := "success", errorMessage := none }] }
  (db', { transactions := txs, providers := provs, expenses := exps,
          categories := cats }, now)

/-! ## Transaction route operations (`src/routes/transactions.js`) -/

/-- Embeds `POST /api/transactions/:id/close`: `updateMany` over rows matching
`{id, userId, status: ACTIVE}` setting `status := CLOSED` and
`closedAt := now`; the returned flag is whether the matched count was
nonzero (else the route answers 404 "not found or already closed"). -/
def closeTransaction (uid tid : String) (now : Int) (db : DB) : DB × Bool :=
  let hit := fun (t : TransactionRow) =>
    t.id == tid && t.userId == uid && t.status == TxStatus.ACTIVE
  let count := (db.transactions.filter hit).length
  ({ db with transactions := db.transactions.map (fun t =>
      if hit t then { t with status := TxStatus.CLOSED, closedAt := some now }
      else t) },
   count != 0)

/-- Patch body of `PATCH /api/transactions/:id`: each field is present or
absent (spread in only when not `undefined`). -/
structure TxPatch where
  description : Option String
  quantity : Option Rat
  unitPrice : Option Rat
  totalAmount : Option Rat
deriving DecidableEq, Repr

/-- Apply the present patch fields to a row (status and timestamps other than
the patched columns are untouched). -/
def applyPatch (t : TransactionRow) (p : TxPatch) : TransactionRow :=
  { t with
    description := match p.description with
      | some d => some d
      | none => t.description
    quantity := match p.quantity with
      | some q => some q
      | none => t.quantity
    unitPrice := match p.unitPrice with
      | some v => some v
      | none => t.unitPrice
    totalAmount := match p.totalAmount with
      | some v => some v
      | none => t.totalAmount }

/-- Embeds `PATCH /api/transactions/:id`: `updateMany` over rows matching
`{id, userId, status: ACTIVE}` applying the patch; flag is whether the
matched count was nonzero. -/
def updateTransactionRoute (uid tid : String) (p : TxPatch) (db : DB) :
    DB × Bool :=
  let hit := fun (t : TransactionRow) =>
    t.id == tid && t.userId == uid && t.status == TxStatus.ACTIVE
  let count := (db.transactions.filter hit).length
  ({ db with transactions := db.transactions.map (fun t =>
      if hit t then applyPatch t p else t) },
   count != 0)

/-- Embeds `POST /api/transactions/:id/advances`: `findFirst` on
`{id, userId, status: ACTIVE}`; 404 when absent, else create an advance row
attached to the transaction. `aid`/`now` stand for the store-generated id and
default date. -/
def addAdvance (uid tid aid : String) (amount : Rat) (desc : Option String)
    (now : Int) (db : DB) : DB × Bool :=
  match db.transactions.find? (fun t =>
      t.id == tid && t.userId == uid && t.status == TxStatus.ACTIVE) with
  | none => (db, false)
  | some _ =>
      ({ db with advances := db.advances ++
          [{ id := aid, amount := amount, description := desc,
             advanceDate := now, transactionId := tid }] }, true)

/-- Embeds `POST /api/transactions/:id/deliveries`: same guard as advances, creating
a delivery row. -/
def addDelivery (uid tid did : String) (quantity : Rat) (desc : Option String)
    (now : Int) (db : DB) : DB × Bool :=
  match db.transactions.find? (fun t =>
      t.id == tid && t.userId == uid && t.status == TxStatus.ACTIVE) with
  | none => (db, false)
  | some _ =>
      ({ db with deliveries := db.deliveries ++
          [{ id := did, quantity := quantity, description := desc,
             deliveryDate := now, transactionId := tid }] }, true)

/-! ## Derived notions used by the claims -/

/-- Primary-key invariant of the Provider table: ids pairwise distinct. -/
def providerIdsUnique (db : DB) : Prop :=
  db.providers.Pairwise (fun a b => a.id ≠ b.id)

/-- Primary-key invariant of the Transaction table: ids pairwise distinct. -/
def transactionIdsUnique (db : DB) : Prop :=
  db.transactions.Pairwise (fun a b => a.id ≠ b.id)

/-- The synchronized record state: every table except the append-only sync
audit log (which by design grows on every push/pull call). -/
def DB.records (db : DB) :
    List ProviderRow × List TransactionRow × List AdvanceRow ×
    List DeliveryRow × List ExpenseRow × List CategoryRow :=
  (db.providers, db.transactions, db.advances, db.deliveries, db.expenses,
   db.categories)

/-- Ownership of an expense, as far as the data model can express it: an
expense belongs to a user only through its parent transaction (the Expense
table has no userId column, so a general expense — `transactionId` null —
belongs to nobody). -/
def expenseBelongsTo (db : DB) (uid : String) (e : ExpenseRow) : Prop :=
  ∃ t ∈ db.transactions, e.transactionId = some t.id ∧ t.userId = uid

/-- Whether a step outcome is a per-record error. -/
def StepOutcome.isErr : StepOutcome → Bool
  | .errored _ _ => true
  | _ => false

/-- The `updatedAt` of the provider `findFirst {id, userId}` returns, if any. -/
def provStamp (db : DB) (i u : String) : Option Int :=
  (findProvider db i u).map (fun r => r.updatedAt)

/-- The `updatedAt` of the transaction `findFirst {id, userId}` returns. -/
def txStamp (db : DB) (i u : String) : Option Int :=
  (findTransaction db i u).map (fun r => r.updatedAt)

/-! ## Generic helper lemmas about list lookup -/

theorem find_cons_pos {α : Type} (q : α → Bool) (a : α) (l : List α)
    (h : q a = true) : (a :: l).find? q = some a :=
  List.find?_cons_of_pos l h

theorem find_cons_neg {α : Type} (q : α → Bool) (a : α) (l : List α)
    (h : ¬ q a = true) : (a :: l).find? q = l.find? q :=
  List.find?_cons_of_neg l h

theorem find_pred {α : Type} (q : α → Bool) (l : List α) (a : α)
    (h : l.find? q = some a) : q a = true :=
  List.find?_some h

theorem find_mem {α : Type} (q : α → Bool) (l : List α) (a : α)
    (h : l.find? q = some a) : a ∈ l :=
  List.mem_of_find?_eq_some h

/-! ## Lemmas about the provider push loop -/

theorem findProvider_def (db : DB) (i u : String) :
    findProvider db i u
      = db.providers.find? (fun r => r.id == i && r.userId == some u) := rfl

theorem syncProviderRecord_eq_update (u : String) (db : DB) (p : ProviderPush)
    (e : ProviderRow) (hf : findProvider db p.id u = some e)
    (hlt : e.updatedAt < p.updatedAt) :
    syncProviderRecord u db p
      = ({ db with providers := providerUpdateList db.providers p },
         .updated) := by
  simp [syncProviderRecord, hf, hlt]

theorem syncProviderRecord_eq_skip (u : String) (db : DB) (p : ProviderPush)
    (e : ProviderRow) (hf : findProvider db p.id u = some e)
    (hlt : ¬ e.updatedAt < p.updatedAt) :
    syncProviderRecord u db p = (db, .skipped) := by
  simp [syncProviderRecord, hf, hlt]

theorem syncProviderRecord_eq_err (u : String) (db : DB) (p : ProviderPush)
    (hf : findProvider db p.id u = none)
    (hany : db.providers.any (fun r => r.id == p.id) = true) :
    syncProviderRecord u db p
      = (db, .errored p.id "Unique constraint failed on the fields: (id)") := by
  simp [syncProviderRecord, hf, hany]

theorem syncProviderRecord_eq_create (u : String) (db : DB) (p : ProviderPush)
    (hf : findProvider db p.id u = none)
    (hany : ¬ db.providers.any (fun r => r.id == p.id) = true) :
    syncProviderRecord u db p
      = ({ db with providers := db.providers ++ [newProviderRow u p] },
         .created) := by
  simp [syncProviderRecord, hf, hany]

/-- The lookup predicate only reads `id` and `userId`, which the push update
preserves, so `findFirst` commutes with the update. -/
theorem providerUpdateList_find (l : List ProviderRow) (p : ProviderPush)
    (i u' : String) :
    (providerUpdateList l p).find? (fun r => r.id == i && r.userId == some u')
      = (l.find? (fun r => r.id == i && r.userId == some u')).map
          (fun r => if r.id == p.id then applyProviderUpdate r p else r) := by
  induction l with
  | nil => rfl
  | cons a l ih =>
      have hpres : ∀ r : ProviderRow,
          ((if r.id == p.id then applyProviderUpdate r p else r).id == i &&
           (if r.id == p.id then applyProviderUpdate r p else r).userId
             == some u')
          = (r.id == i && r.userId == some u') := by
        intro r
        by_cases h : (r.id == p.id) = true <;> simp [h, applyProviderUpdate]
      rw [show providerUpdateList (a :: l) p
            = (if a.id == p.id then applyProviderUpdate a p else a)
              :: providerUpdateList l p from rfl]
      rw [List.find?_cons, List.find?_cons, hpres a]
      cases hq : (a.id == i && a.userId == some u') with
      | true => rfl
      | false => simpa using ih

/-- A provider step only rewrites the provider table. -/
theorem syncProviderRecord_shape (u : String) (db : DB) (p : ProviderPush) :
    ∃ l, (syncProviderRecord u db p).1 = { db with providers := l } := by
  cases hf : findProvider db p.id u with
  | none =>
      by_cases hany : db.providers.any (fun r => r.id == p.id) = true
      · exact ⟨db.providers, by rw [syncProviderRecord_eq_err u db p hf hany]⟩
      · exact ⟨db.providers ++ [newProviderRow u p],
          by rw [syncProviderRecord_eq_create u db p hf hany]⟩
  | some e =>
      by_cases hlt : e.updatedAt < p.updatedAt
      · exact ⟨providerUpdateList db.providers p,
          by rw [syncProviderRecord_eq_update u db p e hf hlt]⟩
      · exact ⟨db.providers, by rw [syncProviderRecord_eq_skip u db p e hf hlt]⟩

/-- A per-record error leaves the store untouched. -/
theorem syncProviderRecord_err_state (u : String) (db : DB) (p : ProviderPush)
    (h : ((syncProviderRecord u db p).2).isErr = true) :
    (syncProviderRecord u db p).1 = db := by
  cases hf : findProvider db p.id u with
  | none =>
      by_cases hany : db.providers.any (fun r => r.id == p.id) = true
      · rw [syncProviderRecord_eq_err u db p hf hany]
      · rw [syncProviderRecord_eq_create u db p hf hany] at h ⊢
        simp [StepOutcome.isErr] at h
  | some e =>
      by_cases hlt : e.updatedAt < p.updatedAt
      · rw [syncProviderRecord_eq_update u db p e hf hlt] at h ⊢
        simp [StepOutcome.isErr] at h
      · rw [syncProviderRecord_eq_skip u db p e hf hlt]

/-- After an error-free provider step for record `p`, the caller-scoped
lookup of `p.id` finds a row at least as new as `p`. -/
theorem provStamp_after_ok_step (u : String) (db : DB) (p : ProviderPush)
    (h : ((syncProviderRecord u db p).2).isErr = false) :
    ∃ s, provStamp (syncProviderRecord u db p).1 p.id u = some s ∧
      p.updatedAt ≤ s := by
  cases hf : findProvider db p.id u with
  | some e =>
      by_cases hlt : e.updatedAt < p.updatedAt
      · refine ⟨p.updatedAt, ?_, le_refl _⟩
        rw [syncProviderRecord_eq_update u db p e hf hlt]
        have hf' : db.providers.find?
            (fun r => r.id == p.id && r.userId == some u) = some e := hf
        have hpe : (e.id == p.id && e.userId == some u) = true :=
          find_pred (fun r => r.id == p.id && r.userId == some u)
            db.providers e hf'
        have heid : e.id = p.id := by
          have := (Bool.and_eq_true _ _).mp hpe
          exact of_decide_eq_true (by simpa using this.1)
        simp only [provStamp, findProvider_def]
        rw [providerUpdateList_find, hf']
        simp [heid, applyProviderUpdate]
      · refine ⟨e.updatedAt, ?_, le_of_not_lt hlt⟩
        rw [syncProviderRecord_eq_skip u db p e hf hlt]
        simp [provStamp, hf]
  | none =>
      by_cases hany : db.providers.any (fun r => r.id == p.id) = true
      · rw [syncProviderRecord_eq_err u db p hf hany] at h
        simp [StepOutcome.isErr] at h
      · refine ⟨p.updatedAt, ?_, le_refl _⟩
        rw [syncProviderRecord_eq_create u db p hf hany]
        have hf' : db.providers.find?
            (fun r => r.id == p.id && r.userId == some u) = none := hf
        simp only [provStamp, findProvider_def]
        rw [List.find?_append, hf']
        simp [newProviderRow]

/-- Any provider step by user `u` can only raise (never lower or remove) the
`updatedAt` of the record `u`'s lookup of a given id yields: skips and errors
leave the store alone, creates touch only a fresh id, and an update replaces
the looked-up row's `updatedAt` by a strictly larger value. -/
theorem provStamp_mono_step (u i : String) (db : DB) (q : ProviderPush)
    (s : Int) (h : provStamp db i u = some s) :
    ∃ s', provStamp (syncProviderRecord u db q).1 i u = some s' ∧ s ≤ s' := by
  obtain ⟨e, hfe, hse⟩ : ∃ e, findProvider db i u = some e ∧ e.updatedAt = s := by
    unfold provStamp at h
    cases hf : findProvider db i u with
    | none => rw [hf] at h; simp at h
    | some e => rw [hf] at h; simp at h; exact ⟨e, rfl, h⟩
  have hfe' : db.providers.find?
      (fun r => r.id == i && r.userId == some u) = some e := hfe
  cases hf : findProvider db q.id u with
  | none =>
      by_cases hany : db.providers.any (fun r => r.id == q.id) = true
      · rw [syncProviderRecord_eq_err u db q hf hany]
        exact ⟨s, by simp [provStamp, hfe, hse], le_refl s⟩
      · rw [syncProviderRecord_eq_create u db q hf hany]
        refine ⟨s, ?_, le_refl s⟩
        simp only [provStamp, findProvider_def]
        rw [List.find?_append, hfe']
        simp [hse]
  | some e0 =>
      by_cases hlt : e0.updatedAt < q.updatedAt
      · rw [syncProviderRecord_eq_update u db q e0 hf hlt]
        simp only [provStamp, findProvider_def]
        rw [providerUpdateList_find, hfe']
        by_cases hei : (e.id == q.id) = true
        · have hpe := find_pred (fun r => r.id == i && r.userId == some u)
            db.providers e hfe'
          have h1 : e.id = i :=
            of_decide_eq_true (by simpa using ((Bool.and_eq_true _ _).mp hpe).1)
          have h2 : e.id = q.id := of_decide_eq_true (by simpa using hei)
          have hiq : i = q.id := h1.symm.trans h2
          have hee : e = e0 := by
            rw [hiq] at hfe
            rw [hfe] at hf
            exact Option.some.inj hf
          refine ⟨q.updatedAt, ?_, ?_⟩
          · simp [h2, applyProviderUpdate]
          · rw [← hse, hee]
            exact le_of_lt hlt
        · have hne : ¬ e.id = q.id := fun hh => hei (by simp [hh])
          refine ⟨s, ?_, le_refl s⟩
          simp [hne, hse]
      · rw [syncProviderRecord_eq_skip u db q e0 hf hlt]
        exact ⟨s, by simp [provStamp, hfe, hse], le_refl s⟩

/-- Unfolding equation for the provider loop on a nonempty batch. -/
theorem pushProviders_cons (u : String) (p : ProviderPush)
    (rest : List ProviderPush) (db : DB) :
    pushProviders u (p :: rest) db
      = ((pushProviders u rest (syncProviderRecord u db p).1).1,
         ((syncProviderRecord u db p).2).consInto
           (pushProviders u rest (syncProviderRecord u db p).1).2) := rfl

/-- Lookup stamps for `u` never decrease across a whole provider batch. -/
theorem provStamp_mono_push (u i : String) (l : List ProviderPush) :
    ∀ (db : DB) (s : Int), provStamp db i u = some s →
      ∃ s', provStamp (pushProviders u l db).1 i u = some s' ∧ s ≤ s' := by
  induction l with
  | nil => intro db s h; exact ⟨s, h, le_refl s⟩
  | cons p rest ih =>
      intro db s h
      obtain ⟨s1, hs1, hle1⟩ := provStamp_mono_step u i db p s h
      obtain ⟨s2, hs2, hle2⟩ := ih (syncProviderRecord u db p).1 s1 hs1
      exact ⟨s2, by rw [pushProviders_cons]; exact hs2, le_trans hle1 hle2⟩

/-- An error-free batch result forces an error-free head step and an
error-free tail. -/
theorem pushProviders_errors_cons (u : String) (p : ProviderPush)
    (rest : List ProviderPush) (db : DB)
    (h : (pushProviders u (p :: rest) db).2.errors = []) :
    ((syncProviderRecord u db p).2).isErr = false ∧
      (pushProviders u rest (syncProviderRecord u db p).1).2.errors = [] := by
  rw [pushProviders_cons] at h
  cases ho : (syncProviderRecord u db p).2 with
  | created => rw [ho] at h; simpa [StepOutcome.consInto, StepOutcome.isErr] using h
  | updated => rw [ho] at h; simpa [StepOutcome.consInto, StepOutcome.isErr] using h
  | skipped => rw [ho] at h; simpa [StepOutcome.consInto, StepOutcome.isErr] using h
  | errored i m => rw [ho] at h; simp [StepOutcome.consInto] at h

/-- After an error-free provider batch, every pushed record's id looks up (for
the caller) to a row at least as new as the pushed record. -/
theorem pushProviders_no_errors_stamp (u : String) (l : List ProviderPush) :
    ∀ db : DB, (pushProviders u l db).2.errors = [] →
      ∀ p ∈ l, ∃ s, provStamp (pushProviders u l db).1 p.id u = some s ∧
        p.updatedAt ≤ s := by
  induction l with
  | nil => intro db _ p hp; exact absurd hp (List.not_mem_nil p)
  | cons q rest ih =>
      intro db h p hp
      obtain ⟨hq, hrest⟩ := pushProviders_errors_cons u q rest db h
      rcases List.mem_cons.mp hp with hpq | hpr
      · subst hpq
        obtain ⟨s0, hs0, hle0⟩ := provStamp_after_ok_step u db p hq
        obtain ⟨s1, hs1, hle1⟩ :=
          provStamp_mono_push u p.id rest (syncProviderRecord u db p).1 s0 hs0
        exact ⟨s1, by rw [pushProviders_cons]; exact hs1, le_trans hle0 hle1⟩
      · obtain ⟨s, hs, hle⟩ := ih (syncProviderRecord u db q).1 hrest p hpr
        exact ⟨s, by rw [pushProviders_cons]; exact hs, hle⟩

/-- A record whose lookup already yields a row at least as new is skipped and
changes nothing. -/
theorem syncProviderRecord_skip_of_stamp (u : String) (db : DB)
    (p : ProviderPush) (s : Int) (h : provStamp db p.id u = some s)
    (hle : p.updatedAt ≤ s) :
    syncProviderRecord u db p = (db, .skipped) := by
  obtain ⟨e, hfe, hse⟩ : ∃ e, findProvider db p.id u = some e ∧
      e.updatedAt = s := by
    unfold provStamp at h
    cases hf : findProvider db p.id u with
    | none => rw [hf] at h; simp at h
    | some e => rw [hf] at h; simp at h; exact ⟨e, rfl, h⟩
  exact syncProviderRecord_eq_skip u db p e hfe (by rw [hse]; exact not_lt.mpr hle)

/-- A provider batch whose every record is already dominated by the server
copies is a complete no-op: no state change, zero created, zero updated, no
errors. -/
theorem pushProviders_all_skip (u : String) (l : List ProviderPush) :
    ∀ db : DB,
      (∀ p ∈ l, ∃ s, provStamp db p.id u = some s ∧ p.updatedAt ≤ s) →
      pushProviders u l db = (db, CollResult.empty) := by
  induction l with
  | nil => intro db _; rfl
  | cons q rest ih =>
      intro db h
      obtain ⟨s, hs, hle⟩ := h q (List.mem_cons_self q rest)
      have hskip := syncProviderRecord_skip_of_stamp u db q s hs hle
      rw [pushProviders_cons, hskip]
      have hrest := ih db (fun p hp => h p (List.mem_cons_of_mem q hp))
      rw [show (((db, StepOutcome.skipped) : DB × StepOutcome).1) = db from rfl]
      rw [hrest]
      rfl

/-! ## Lemmas about the transaction push loop (mirroring the provider ones) -/

theorem findTransaction_def (db : DB) (i u : String) :
    findTransaction db i u
      = db.transactions.find? (fun r => r.id == i && r.userId == u) := rfl

theorem syncTransactionRecord_eq_update (u : String) (db : DB)
    (t : TransactionPush) (e : TransactionRow)
    (hf : findTransaction db t.id u = some e)
    (hlt : e.updatedAt < t.updatedAt) :
    syncTransactionRecord u db t
      = ({ db with transactions := transactionUpdateList db.transactions t },
         .updated) := by
  simp [syncTransactionRecord, hf, hlt]

theorem syncTransactionRecord_eq_skip (u : String) (db : DB)
    (t : TransactionPush) (e : TransactionRow)
    (hf : findTransaction db t.id u = some e)
    (hlt : ¬ e.updatedAt < t.updatedAt) :
    syncTransactionRecord u db t = (db, .skipped) := by
  simp [syncTransactionRecord, hf, hlt]

theorem syncTransactionRecord_eq_err_pk (u : String) (db : DB)
    (t : TransactionPush) (hf : findTransaction db t.id u = none)
    (hany : db.transactions.any (fun r => r.id == t.id) = true) :
    syncTransactionRecord u db t
      = (db, .errored t.id "Unique constraint failed on the fields: (id)") := by
  simp [syncTransactionRecord, hf, hany]

theorem syncTransactionRecord_eq_err_fk (u : String) (db : DB)
    (t : TransactionPush) (hf : findTransaction db t.id u = none)
    (hany : ¬ db.transactions.any (fun r => r.id == t.id) = true)
    (hfk : ¬ db.providers.any (fun r => r.id == t.providerId) = true) :
    syncTransactionRecord u db t
      = (db,
         .errored t.id "Foreign key constraint failed on the field: providerId")
    := by
  simp [syncTransactionRecord, hf, hany, hfk]

theorem syncTransactionRecord_eq_create (u : String) (db : DB)
    (t : TransactionPush) (hf : findTransaction db t.id u = none)
    (hany : ¬ db.transactions.any (fun r => r.id == t.id) = true)
    (hfk : db.providers.any (fun r => r.id == t.providerId) = true) :
    syncTransactionRecord u db t
      = ({ db with transactions := db.transactions ++ [newTransactionRow u t] },
         .created) := by
  simp [syncTransactionRecord, hf, hany, hfk]

/-- The lookup predicate only reads `id` and `userId`, which the push update
preserves, so `findFirst` commutes with the update. -/
theorem transactionUpdateList_find (l : List TransactionRow)
    (t : TransactionPush) (i u' : String) :
    (transactionUpdateList l t).find? (fun r => r.id == i && r.userId == u')
      = (l.find? (fun r => r.id == i && r.userId == u')).map
          (fun r => if r.id == t.id then applyTransactionUpdate r t else r) := by
  induction l with
  | nil => rfl
  | cons a l ih =>
      have hpres : ∀ r : TransactionRow,
          ((if r.id == t.id then applyTransactionUpdate r t else r).id == i &&
           (if r.id == t.id then applyTransactionUpdate r t else r).userId
             == u')
          = (r.id == i && r.userId == u') := by
        intro r
        by_cases h : (r.id == t.id) = true <;>
          simp [h, applyTransactionUpdate]
      rw [show transactionUpdateList (a :: l) t
            = (if a.id == t.id then applyTransactionUpdate a t else a)
              :: transactionUpdateList l t from rfl]
      rw [List.find?_cons, List.find?_cons, hpres a]
      cases hq : (a.id == i && a.userId == u') with
      | true => rfl
      | false => simpa using ih

/-- A transaction step only rewrites the transaction table. -/
theorem syncTransactionRecord_shape (u : String) (db : DB)
    (t : TransactionPush) :
    ∃ l, (syncTransactionRecord u db t).1 = { db with transactions := l } := by
  cases hf : findTransaction db t.id u with
  | none =>
      by_cases hany : db.transactions.any (fun r => r.id == t.id) = true
      · exact ⟨db.transactions,
          by rw [syncTransactionRecord_eq_err_pk u db t hf hany]⟩
      · by_cases hfk : db.providers.any (fun r => r.id == t.providerId) = true
        · exact ⟨db.transactions ++ [newTransactionRow u t],
            by rw [syncTransactionRecord_eq_create u db t hf hany hfk]⟩
        · exact ⟨db.transactions,
            by rw [syncTransactionRecord_eq_err_fk u db t hf hany hfk]⟩
  | some e =>
      by_cases hlt : e.updatedAt < t.updatedAt
      · exact ⟨transactionUpdateList db.transactions t,
          by rw [syncTransactionRecord_eq_update u db t e hf hlt]⟩
      · exact ⟨db.transactions,
          by rw [syncTransactionRecord_eq_skip u db t e hf hlt]⟩

/-- A per-record error leaves the store untouched. -/
theorem syncTransactionRecord_err_state (u : String) (db : DB)
    (t : TransactionPush)
    (h : ((syncTransactionRecord u db t).2).isErr = true) :
    (syncTransactionRecord u db t).1 = db := by
  cases hf : findTransaction db t.id u with
  | none =>
      by_cases hany : db.transactions.any (fun r => r.id == t.id) = true
      · rw [syncTransactionRecord_eq_err_pk u db t hf hany]
      · by_cases hfk : db.providers.any (fun r => r.id == t.providerId) = true
        · rw [syncTransactionRecord_eq_create u db t hf hany hfk] at h ⊢
          simp [StepOutcome.isErr] at h
        · rw [syncTransactionRecord_eq_err_fk u db t hf hany hfk]
  | some e =>
      by_cases hlt : e.updatedAt < t.updatedAt
      · rw [syncTransactionRecord_eq_update u db t e hf hlt] at h ⊢
        simp [StepOutcome.isErr] at h
      · rw [syncTransactionRecord_eq_skip u db t e hf hlt]

/-- After an error-free transaction step for record `t`, the caller-scoped
lookup of `t.id` finds a row at least as new as `t`. -/
theorem txStamp_after_ok_step (u : String) (db : DB) (t : TransactionPush)
    (h : ((syncTransactionRecord u db t).2).isErr = false) :
    ∃ s, txStamp (syncTransactionRecord u db t).1 t.id u = some s ∧
      t.updatedAt ≤ s := by
  cases hf : findTransaction db t.id u with
  | some e =>
      by_cases hlt : e.updatedAt < t.updatedAt
      · refine ⟨t.updatedAt, ?_, le_refl _⟩
        rw [syncTransactionRecord_eq_update u db t e hf hlt]
        have hf' : db.transactions.find?
            (fun r => r.id == t.id && r.userId == u) = some e := hf
        have hpe : (e.id == t.id && e.userId == u) = true :=
          find_pred (fun r => r.id == t.id && r.userId == u)
            db.transactions e hf'
        have heid : e.id = t.id :=
          of_decide_eq_true
            (by simpa using ((Bool.and_eq_true _ _).mp hpe).1)
        simp only [txStamp, findTransaction_def]
        rw [transactionUpdateList_find, hf']
        simp [heid, applyTransactionUpdate]
      · refine ⟨e.updatedAt, ?_, le_of_not_lt hlt⟩
        rw [syncTransactionRecord_eq_skip u db t e hf hlt]
        simp [txStamp, hf]
  | none =>
      by_cases hany : db.transactions.any (fun r => r.id == t.id) = true
      · rw [syncTransactionRecord_eq_err_pk u db t hf hany] at h
        simp [StepOutcome.isErr] at h
      · by_cases hfk : db.providers.any (fun r => r.id == t.providerId) = true
        · refine ⟨t.updatedAt, ?_, le_refl _⟩
          rw [syncTransactionRecord_eq_create u db t hf hany hfk]
          have hf' : db.transactions.find?
              (fun r => r.id == t.id && r.userId == u) = none := hf
          simp only [txStamp, findTransaction_def]
          rw [List.find?_append, hf']
          simp [newTransactionRow]
        · rw [syncTransactionRecord_eq_err_fk u db t hf hany hfk] at h
          simp [StepOutcome.isErr] at h

/-- Any transaction step by user `u` can only raise the `updatedAt` of the
record `u`'s lookup of a given id yields. -/
theorem txStamp_mono_step (u i : String) (db : DB) (q : TransactionPush)
    (s : Int) (h : txStamp db i u = some s) :
    ∃ s', txStamp (syncTransactionRecord u db q).1 i u = some s' ∧ s ≤ s' := by
  obtain ⟨e, hfe, hse⟩ : ∃ e, findTransaction db i u = some e ∧
      e.updatedAt = s := by
    unfold txStamp at h
    cases hf : findTransaction db i u with
    | none => rw [hf] at h; simp at h
    | some e => rw [hf] at h; simp at h; exact ⟨e, rfl, h⟩
  have hfe' : db.transactions.find?
      (fun r => r.id == i && r.userId == u) = some e := hfe
  cases hf : findTransaction db q.id u with
  | none =>
      by_cases hany : db.transactions.any (fun r => r.id == q.id) = true
      · rw [syncTransactionRecord_eq_err_pk u db q hf hany]
        exact ⟨s, by simp [txStamp, hfe, hse], le_refl s⟩
      · by_cases hfk : db.providers.any (fun r => r.id == q.providerId) = true
        · rw [syncTransactionRecord_eq_create u db q hf hany hfk]
          refine ⟨s, ?_, le_refl s⟩
          simp only [txStamp, findTransaction_def]
          rw [List.find?_append, hfe']
          simp [hse]
        · rw [syncTransactionRecord_eq_err_fk u db q hf hany hfk]
          exact ⟨s, by simp [txStamp, hfe, hse], le_refl s⟩
  | some e0 =>
      by_cases hlt : e0.updatedAt < q.updatedAt
      · rw [syncTransactionRecord_eq_update u db q e0 hf hlt]
        simp only [txStamp, findTransaction_def]
        rw [transactionUpdateList_find, hfe']
        by_cases hei : (e.id == q.id) = true
        · have hpe := find_pred (fun r => r.id == i && r.userId == u)
            db.transactions e hfe'
          have h1 : e.id = i :=
            of_decide_eq_true
              (by simpa using ((Bool.and_eq_true _ _).mp hpe).1)
          have h2 : e.id = q.id := of_decide_eq_true (by simpa using hei)
          have hiq : i = q.id := h1.symm.trans h2
          have hee : e = e0 := by
            rw [hiq] at hfe
            rw [hfe] at hf
            exact Option.some.inj hf
          refine ⟨q.updatedAt, ?_, ?_⟩
          · simp [h2, applyTransactionUpdate]
          · rw [← hse, hee]
            exact le_of_lt hlt
        · have hne : ¬ e.id = q.id := fun hh => hei (by simp [hh])
          refine ⟨s, ?_, le_refl s⟩
          simp [hne, hse]
      · rw [syncTransactionRecord_eq_skip u db q e0 hf hlt]
        exact ⟨s, by simp [txStamp, hfe, hse], le_refl s⟩

/-- Unfolding equation for the transaction loop on a nonempty batch. -/
theorem pushTransactions_cons (u : String) (t : TransactionPush)
    (rest : List TransactionPush) (db : DB) :
    pushTransactions u (t :: rest) db
      = ((pushTransactions u rest (syncTransactionRecord u db t).1).1,
         ((syncTransactionRecord u db t).2).consInto
           (pushTransactions u rest (syncTransactionRecord u db t).1).2) := rfl

/-- Lookup stamps for `u` never decrease across a whole transaction batch. -/
theorem txStamp_mono_push (u i : String) (l : List TransactionPush) :
    ∀ (db : DB) (s : Int), txStamp db i u = some s →
      ∃ s', txStamp (pushTransactions u l db).1 i u = some s' ∧ s ≤ s' := by
  induction l with
  | nil => intro db s h; exact ⟨s, h, le_refl s⟩
  | cons t rest ih =>
      intro db s h
      obtain ⟨s1, hs1, hle1⟩ := txStamp_mono_step u i db t s h
      obtain ⟨s2, hs2, hle2⟩ := ih (syncTransactionRecord u db t).1 s1 hs1
      exact ⟨s2, by rw [pushTransactions_cons]; exact hs2, le_trans hle1 hle2⟩

/-- An error-free batch result forces an error-free head step and an
error-free tail. -/
theorem pushTransactions_errors_cons (u : String) (t : TransactionPush)
    (rest : List TransactionPush) (db : DB)
    (h : (pushTransactions u (t :: rest) db).2.errors = []) :
    ((syncTransactionRecord u db t).2).isErr = false ∧
      (pushTransactions u rest (syncTransactionRecord u db t).1).2.errors
        = [] := by
  rw [pushTransactions_cons] at h
  cases ho : (syncTransactionRecord u db t).2 with
  | created =>
      rw [ho] at h; simpa [StepOutcome.consInto, StepOutcome.isErr] using h
  | updated =>
      rw [ho] at h; simpa [StepOutcome.consInto, StepOutcome.isErr] using h
  | skipped =>
      rw [ho] at h; simpa [StepOutcome.consInto, StepOutcome.isErr] using h
  | errored i m => rw [ho] at h; simp [StepOutcome.consInto] at h

/-- After an error-free transaction batch, every pushed record's id looks up
(for the caller) to a row at least as new as the pushed record. -/
theorem pushTransactions_no_errors_stamp (u : String)
    (l : List TransactionPush) :
    ∀ db : DB, (pushTransactions u l db).2.errors = [] →
      ∀ t ∈ l, ∃ s, txStamp (pushTransactions u l db).1 t.id u = some s ∧
        t.updatedAt ≤ s := by
  induction l with
  | nil => intro db _ t ht; exact absurd ht (List.not_mem_nil t)
  | cons q rest ih =>
      intro db h t ht
      obtain ⟨hq, hrest⟩ := pushTransactions_errors_cons u q rest db h
      rcases List.mem_cons.mp ht with htq | htr
      · subst htq
        obtain ⟨s0, hs0, hle0⟩ := txStamp_after_ok_step u db t hq
        obtain ⟨s1, hs1, hle1⟩ :=
          txStamp_mono_push u t.id rest (syncTransactionRecord u db t).1 s0 hs0
        exact ⟨s1, by rw [pushTransactions_cons]; exact hs1,
          le_trans hle0 hle1⟩
      · obtain ⟨s, hs, hle⟩ := ih (syncTransactionRecord u db q).1 hrest t htr
        exact ⟨s, by rw [pushTransactions_cons]; exact hs, hle⟩

/-- A record whose lookup already yields a row at least as new is skipped and
changes nothing. -/
theorem syncTransactionRecord_skip_of_stamp (u : String) (db : DB)
    (t : TransactionPush) (s : Int) (h : txStamp db t.id u = some s)
    (hle : t.updatedAt ≤ s) :
    syncTransactionRecord u db t = (db, .skipped) := by
  obtain ⟨e, hfe, hse⟩ : ∃ e, findTransaction db t.id u = some e ∧
      e.updatedAt = s := by
    unfold txStamp at h
    cases hf : findTransaction db t.id u with
    | none => rw [hf] at h; simp at h
    | some e => rw [hf] at h; simp at h; exact ⟨e, rfl, h⟩
  exact syncTransactionRecord_eq_skip u db t e hfe
    (by rw [hse]; exact not_lt.mpr hle)

/-- A transaction batch whose every record is already dominated by the server
copies is a complete no-op. -/
theorem pushTransactions_all_skip (u : String) (l : List TransactionPush) :
    ∀ db : DB,
      (∀ t ∈ l, ∃ s, txStamp db t.id u = some s ∧ t.updatedAt ≤ s) →
      pushTransactions u l db = (db, CollResult.empty) := by
  induction l with
  | nil => intro db _; rfl
  | cons q rest ih =>
      intro db h
      obtain ⟨s, hs, hle⟩ := h q (List.mem_cons_self q rest)
      have hskip := syncTransactionRecord_skip_of_stamp u db q s hs hle
      rw [pushTransactions_cons, hskip]
      have hrest := ih db (fun t ht => h t (List.mem_cons_of_mem q ht))
      rw [show (((db, StepOutcome.skipped) : DB × StepOutcome).1) = db from rfl]
      rw [hrest]
      rfl

/-! ## Whole-push lemmas -/

/-- The provider loop only rewrites the provider table. -/
theorem pushProviders_shape (u : String) (l : List ProviderPush) :
    ∀ db : DB, ∃ pl, (pushProviders u l db).1 = { db with providers := pl } := by
  induction l with
  | nil => intro db; exact ⟨db.providers, rfl⟩
  | cons p rest ih =>
      intro db
      obtain ⟨l1, h1⟩ := syncProviderRecord_shape u db p
      obtain ⟨l2, h2⟩ := ih (syncProviderRecord u db p).1
      refine ⟨l2, ?_⟩
      rw [pushProviders_cons]
      show (pushProviders u rest (syncProviderRecord u db p).1).1
        = { db with providers := l2 }
      rw [h2, h1]

/-- The transaction loop only rewrites the transaction table. -/
theorem pushTransactions_shape (u : String) (l : List TransactionPush) :
    ∀ db : DB, ∃ tl,
      (pushTransactions u l db).1 = { db with transactions := tl } := by
  induction l with
  | nil => intro db; exact ⟨db.transactions, rfl⟩
  | cons t rest ih =>
      intro db
      obtain ⟨l1, h1⟩ := syncTransactionRecord_shape u db t
      obtain ⟨l2, h2⟩ := ih (syncTransactionRecord u db t).1
      refine ⟨l2, ?_⟩
      rw [pushTransactions_cons]
      show (pushTransactions u rest (syncTransactionRecord u db t).1).1
        = { db with transactions := l2 }
      rw [h2, h1]

/-- Unfolded form of the push handler on its success path. -/
theorem pushHandler_true_eq (u : String) (body : PushBody) (db : DB) :
    pushHandler u body true db
      = ({ (pushTransactions u body.transactions
              (pushProviders u body.providers db).1).1 with
            syncLogs := (pushTransactions u body.transactions
                (pushProviders u body.providers db).1).1.syncLogs ++
              [{ userId := u, syncType := "push",
                 recordsCount := totalRecords body,
                 status := "success", errorMessage := none }] },
         .ok { transactions := (pushTransactions u body.transactions
                 (pushProviders u body.providers db).1).2,
               providers := (pushProviders u body.providers db).2,
               expenses := CollResult.empty }) := rfl

/-- Unfolded form of the push handler when the audit-log write fails. -/
theorem pushHandler_false_eq (u : String) (body : PushBody) (db : DB) :
    pushHandler u body false db
      = ({ (pushTransactions u body.transactions
              (pushProviders u body.providers db).1).1 with
            syncLogs := (pushTransactions u body.transactions
                (pushProviders u body.providers db).1).1.syncLogs ++
              [{ userId := u, syncType := "push", recordsCount := 0,
                 status := "failed",
                 errorMessage := some "log write failed" }] },
         .serverError) := rfl

theorem provStamp_set_transactions (db : DB) (tl : List TransactionRow)
    (i u : String) :
    provStamp { db with transactions := tl } i u = provStamp db i u := rfl

theorem provStamp_set_syncLogs (db : DB) (x : List SyncLogRow) (i u : String) :
    provStamp { db with syncLogs := x } i u = provStamp db i u := rfl

theorem txStamp_set_syncLogs (db : DB) (x : List SyncLogRow) (i u : String) :
    txStamp { db with syncLogs := x } i u = txStamp db i u := rfl

theorem pushHandler_true_state (u : String) (body : PushBody) (db : DB) :
    (pushHandler u body true db).1
      = { (pushTransactions u body.transactions
              (pushProviders u body.providers db).1).1 with
          syncLogs := (pushTransactions u body.transactions
              (pushProviders u body.providers db).1).1.syncLogs ++
            [{ userId := u, syncType := "push",
               recordsCount := totalRecords body,
               status := "success", errorMessage := none }] } := rfl

theorem pushHandler_true_resp (u : String) (body : PushBody) (db : DB) :
    (pushHandler u body true db).2
      = .ok { transactions := (pushTransactions u body.transactions
                (pushProviders u body.providers db).1).2,
              providers := (pushProviders u body.providers db).2,
              expenses := CollResult.empty } := rfl

/-- Claim C2: pushing the same record batch twice, when no record's
`updatedAt` changes between the two calls and the first push reported no
per-record errors (the spec's "all skipped, no errors" scenario), is
idempotent: the second push produces zero created and zero updated records
and an empty error list for every collection, and the synchronized record
state (`DB.records`, i.e. every table except the append-only SyncLog audit
trail, which by §4.4/§4.3 of the spec grows on every call) after the second
push equals the state after the first. -/
theorem push_twice_idempotent (u : String) (body : PushBody) (db : DB)
    (r : PushResults)
    (h1 : (pushHandler u body true db).2 = .ok r)
    (hpe : r.providers.errors = [])
    (hte : r.transactions.errors = []) :
    pushHandler u body true (pushHandler u body true db).1
      = ({ (pushHandler u body true db).1 with
            syncLogs := (pushHandler u body true db).1.syncLogs ++
              [{ userId := u, syncType := "push",
                 recordsCount := totalRecords body,
                 status := "success", errorMessage := none }] },
         .ok { transactions := CollResult.empty,
               providers := CollResult.empty,
               expenses := CollResult.empty }) ∧
    (pushHandler u body true (pushHandler u body true db).1).1.records
      = (pushHandler u body true db).1.records := by
  have hresp := pushHandler_true_resp u body db
  rw [h1] at hresp
  have hr : r = {
      transactions := ((pushTransactions u body.transactions
          (pushProviders u body.providers db).1).2),
      providers := (pushProviders u body.providers db).2,
      expenses := CollResult.empty } := PushResponse.ok.inj hresp
  rw [hr] at hpe hte
  have hps : (pushProviders u body.providers db).2.errors = [] := hpe
  have hts : (pushTransactions u body.transactions
      (pushProviders u body.providers db).1).2.errors = [] := hte
  obtain ⟨tl, htl⟩ := pushTransactions_shape u body.transactions
    (pushProviders u body.providers db).1
  have hstate := pushHandler_true_state u body db
  have hProv : ∀ p ∈ body.providers, ∃ s,
      provStamp (pushHandler u body true db).1 p.id u = some s ∧
        p.updatedAt ≤ s := by
    intro p hp
    obtain ⟨s, hs, hle⟩ :=
      pushProviders_no_errors_stamp u body.providers db hps p hp
    refine ⟨s, ?_, hle⟩
    rw [hstate, provStamp_set_syncLogs, htl, provStamp_set_transactions]
    exact hs
  have hTx : ∀ t ∈ body.transactions, ∃ s,
      txStamp (pushHandler u body true db).1 t.id u = some s ∧
        t.updatedAt ≤ s := by
    intro t ht
    obtain ⟨s, hs, hle⟩ := pushTransactions_no_errors_stamp u
      body.transactions (pushProviders u body.providers db).1 hts t ht
    refine ⟨s, ?_, hle⟩
    rw [hstate, txStamp_set_syncLogs]
    exact hs
  have hP2 := pushProviders_all_skip u body.providers
    (pushHandler u body true db).1 hProv
  have hT2 := pushTransactions_all_skip u body.transactions
    (pushHandler u body true db).1 hTx
  have hP2s : (pushProviders u body.providers
      (pushHandler u body true db).1).1 = (pushHandler u body true db).1 := by
    rw [hP2]
  have hP2r : (pushProviders u body.providers
      (pushHandler u body true db).1).2 = CollResult.empty := by
    rw [hP2]
  have hT2s : (pushTransactions u body.transactions
      (pushHandler u body true db).1).1 = (pushHandler u body true db).1 := by
    rw [hT2]
  have hT2r : (pushTransactions u body.transactions
      (pushHandler u body true db).1).2 = CollResult.empty := by
    rw [hT2]
  have hmain : pushHandler u body true (pushHandler u body true db).1
      = ({ (pushHandler u body true db).1 with
            syncLogs := (pushHandler u body true db).1.syncLogs ++
              [{ userId := u, syncType := "push",
                 recordsCount := totalRecords body,
                 status := "success", errorMessage := none }] },
         .ok { transactions := CollResult.empty,
               providers := CollResult.empty,
               expenses := CollResult.empty }) := by
    rw [pushHandler_true_eq u body (pushHandler u body true db).1]
    rw [hP2s, hT2s, hT2r, hP2r]
  exact ⟨hmain, by rw [hmain]; rfl⟩


/-- The empty store. -/
def emptyDB : DB :=
  { providers := [], transactions := [], advances := [], deliveries := [],
    expenses := [], categories := [], syncLogs := [] }

/-- Claim C1: for every push batch and every submitted record (provider or
transaction) whose id matches an existing server record owned by the caller,
if the client record's `updatedAt` is not strictly greater than the server
record's `updatedAt`, processing that record leaves the server state entirely
unchanged (no field of any record is mutated) and reports neither a create
nor an update — formalized both for the per-record processing step and for
the whole push of the batch containing exactly that record. -/
theorem push_stale_record_noop (u : String) (p : ProviderPush)
    (t : TransactionPush) (db dbt : DB) (e : ProviderRow) (f : TransactionRow)
    (hep : findProvider db p.id u = some e)
    (hpe : ¬ e.updatedAt < p.updatedAt)
    (het : findTransaction dbt t.id u = some f)
    (hte : ¬ f.updatedAt < t.updatedAt) :
    syncProviderRecord u db p = (db, .skipped) ∧
    syncTransactionRecord u dbt t = (dbt, .skipped) ∧
    pushProviders u [p] db = (db, CollResult.empty) ∧
    pushTransactions u [t] dbt = (dbt, CollResult.empty) := by
  have h1 := syncProviderRecord_eq_skip u db p e hep hpe
  have h2 := syncTransactionRecord_eq_skip u dbt t f het hte
  refine ⟨h1, h2, ?_, ?_⟩
  · rw [pushProviders_cons, h1]
    rfl
  · rw [pushTransactions_cons, h2]
    rfl

/-- Provider row used by the C1 witness. -/
def c1Row : ProviderRow :=
  { id := "p1", name := "Acme", email := none, phone := none, address := none,
    notes := none, userId := some "u1", createdAt := 1, updatedAt := 10 }

/-- Transaction row used by the C1 witness. -/
def c1TxRow : TransactionRow :=
  { id := "t1", contractNumber := "20250101-AAAA", description := none,
    status := .ACTIVE, quantity := none, unitPrice := none, totalAmount := none,
    userId := "u1", providerId := "p1", productServiceId := none,
    transactionDate := 0, closedAt := none, createdAt := 1, updatedAt := 10 }

/-- Store used by the C1 witness. -/
def c1DB : DB :=
  { providers := [c1Row], transactions := [c1TxRow], advances := [],
    deliveries := [], expenses := [], categories := [], syncLogs := [] }

/-- Stale provider push record for the C1 witness (`updatedAt` equal, hence
not strictly newer). -/
def c1Push : ProviderPush :=
  { id := "p1", name := "Acme renamed", email := none, phone := none,
    address := none, notes := none, createdAt := 1, updatedAt := 10 }

/-- Stale transaction push record for the C1 witness. -/
def c1TxPush : TransactionPush :=
  { id := "t1", contractNumber := "20250101-AAAA", description := none,
    status := .CLOSED, quantity := none, unitPrice := none, totalAmount := none,
    providerId := "p1", productServiceId := none, transactionDate := 0,
    createdAt := 1, updatedAt := 9 }

/-- Witness for C1: a stale provider record and a stale transaction record
against a concrete store are both skipped without touching the store. -/
theorem push_stale_record_noop_witness :
    syncProviderRecord "u1" c1DB c1Push = (c1DB, .skipped) ∧
    syncTransactionRecord "u1" c1DB c1TxPush = (c1DB, .skipped) ∧
    pushProviders "u1" [c1Push] c1DB = (c1DB, CollResult.empty) ∧
    pushTransactions "u1" [c1TxPush] c1DB = (c1DB, CollResult.empty) :=
  push_stale_record_noop "u1" c1Push c1TxPush c1DB c1DB c1Row c1TxRow
    (by rfl) (by decide) (by rfl) (by decide)


/-- The new provider record pushed by the C2 witness. -/
def c2Prov : ProviderPush :=
  { id := "p9", name := "Fresh", email := none, phone := none,
    address := none, notes := none, createdAt := 3, updatedAt := 7 }

/-- One-new-provider batch used by the C2 witness. -/
def c2Body : PushBody :=
  { transactions := [], providers := [c2Prov], expenses := [] }

/-- Witness for C2: pushing a one-provider batch over the empty store and
then pushing the identical batch again yields an all-zero result and leaves
the record state unchanged. -/
theorem push_twice_idempotent_witness :
    pushHandler "u1" c2Body true (pushHandler "u1" c2Body true emptyDB).1
      = ({ (pushHandler "u1" c2Body true emptyDB).1 with
            syncLogs := ((pushHandler "u1" c2Body true emptyDB).1.syncLogs ++
              [{ userId := "u1", syncType := "push",
                 recordsCount := totalRecords c2Body,
                 status := "success", errorMessage := none }]) },
         .ok { transactions := CollResult.empty,
               providers := CollResult.empty,
               expenses := CollResult.empty }) ∧
    (pushHandler "u1" c2Body true
        (pushHandler "u1" c2Body true emptyDB).1).1.records
      = (pushHandler "u1" c2Body true emptyDB).1.records :=
  push_twice_idempotent "u1" c2Body emptyDB
    { transactions := CollResult.empty,
      providers := { created := 1, updated := 0, errors := [] },
      expenses := CollResult.empty }
    (by rfl) (by rfl) (by rfl)

/-- The transaction of the spec's worked balance example: created through
`POST /api/transactions` with `quantity = 100`, `unitPrice = 10` and no
client-supplied total, so the stored total is the calculated `100 × 10`. -/
def c5Tx : TransactionRow :=
  { id := "t5", contractNumber := "20250101-BBBB", description := none,
    status := .ACTIVE, quantity := some 100, unitPrice := some 10,
    totalAmount := calculatedTotal none (some 100) (some 10),
    userId := "u1", providerId := "p1", productServiceId := none,
    transactionDate := 0, closedAt := none, createdAt := 0, updatedAt := 0 }

/-- Advance movements 200 and 150 of the spec's worked example. -/
def c5Advances : List AdvanceRow :=
  [{ id := "a1", amount := 200, description := none, advanceDate := 0,
     transactionId := "t5" },
   { id := "a2", amount := 150, description := none, advanceDate := 0,
     transactionId := "t5" }]

/-- Delivery movements 40 and 20 of the spec's worked example. -/
def c5Deliveries : List DeliveryRow :=
  [{ id := "d1", quantity := 40, description := none, deliveryDate := 0,
     transactionId := "t5" },
   { id := "d2", quantity := 20, description := none, deliveryDate := 0,
     transactionId := "t5" }]

/-- Claim C5: for an operation created with agreedQuantity 100 and
pricePerUnit 10 (the create route computes totalAgreedMoney 1000), with money
movements of 200 and 150 and product deliveries of 40 and 20, the balance
computation returns totalAdvances 350, totalDelivered 60, moneyBalance 650,
productBalance 40, moneyProgress 35.00 and productProgress 60.00. -/
theorem calculateBalances_example :
    calculatedTotal none (some 100) (some 10) = some 1000 ∧
    calculateBalances c5Tx c5Advances c5Deliveries
      = { totalAdvances := 350, totalDelivered := 60, moneyBalance := 650,
          productBalance := 40, moneyProgress := 35, productProgress := 60 }
    := by
  constructor
  · simp [calculatedTotal, truthy]
    norm_num
  · simp [calculateBalances, c5Tx, c5Advances, c5Deliveries, round2,
      mathRound, gtZero, calculatedTotal, truthy]
    norm_num

/-- Modelled from the spec (§4.1/§8.1): the progress percentage is zero when
the agreed total is zero, else one hundred times the ratio, rounded to two
decimals with half-up rounding applied to the percentage value. -/
def specProgressPct (total partIn : Rat) : Rat :=
  if total = 0 then 0 else ((⌊100 * partIn / total * 100 + 1 / 2⌋ : Rat) / 100)

theorem round2_zero : round2 0 = 0 := by
  norm_num [round2, mathRound]

/-- The code's guarded-and-rounded percentage agrees with the spec's, for a
non-negative denominator. -/
theorem round2_progress_spec (a v : Rat) (hv : 0 ≤ v) :
    round2 (if gtZero (some v) then a / v * 100 else 0)
      = specProgressPct v a := by
  rcases lt_or_eq_of_le hv with hv0 | hv0
  · have hne : v ≠ 0 := ne_of_gt hv0
    rw [show gtZero (some v) = true from by simp [gtZero, hv0]]
    simp only [if_pos, specProgressPct, if_neg hne, round2, mathRound]
    congr 2
    congr 1
    ring
  · rw [show gtZero (some v) = false from by simp [gtZero, ← hv0]]
    simp only [Bool.false_eq_true, if_false, round2_zero, specProgressPct,
      if_pos (Eq.symm hv0)]

/-- Claim C6: for non-negative agreed totals and sums, `moneyProgress` is 0
when `totalAmount` is 0 or absent and otherwise equals the spec's half-up
two-decimal rounding of 100 × totalAdvances / totalAmount; the analogous
statement holds for `productProgress` over `quantity` and the delivered
sum. -/
theorem progress_matches_spec (t : TransactionRow) (advs : List AdvanceRow)
    (dels : List DeliveryRow)
    (hm : ∀ v ∈ t.totalAmount, 0 ≤ v) (hq : ∀ v ∈ t.quantity, 0 ≤ v)
    (ha : 0 ≤ (calculateBalances t advs dels).totalAdvances)
    (hd : 0 ≤ (calculateBalances t advs dels).totalDelivered) :
    (calculateBalances t advs dels).moneyProgress
      = specProgressPct (t.totalAmount.getD 0)
          ((calculateBalances t advs dels).totalAdvances) ∧
    (calculateBalances t advs dels).productProgress
      = specProgressPct (t.quantity.getD 0)
          ((calculateBalances t advs dels).totalDelivered) := by
  have hprojM : (calculateBalances t advs dels).moneyProgress
      = round2 (if gtZero t.totalAmount
          then (calculateBalances t advs dels).totalAdvances
            / t.totalAmount.getD 0 * 100
          else 0) := rfl
  have hprojP : (calculateBalances t advs dels).productProgress
      = round2 (if gtZero t.quantity
          then (calculateBalances t advs dels).totalDelivered
            / t.quantity.getD 0 * 100
          else 0) := rfl
  constructor
  · rw [hprojM]
    cases hma : t.totalAmount with
    | none =>
        rw [show gtZero none = false from rfl]
        simp [round2_zero, specProgressPct]
    | some v =>
        have hv : 0 ≤ v := hm v (by rw [hma]; rfl)
        rw [show (some v : Option Rat).getD 0 = v from rfl]
        exact round2_progress_spec _ v hv
  · rw [hprojP]
    cases hmq : t.quantity with
    | none =>
        rw [show gtZero none = false from rfl]
        simp [round2_zero, specProgressPct]
    | some v =>
        have hv : 0 ≤ v := hq v (by rw [hmq]; rfl)
        rw [show (some v : Option Rat).getD 0 = v from rfl]
        exact round2_progress_spec _ v hv

/-- Witness for C6 at the spec's worked example. -/
theorem progress_matches_spec_witness :
    (calculateBalances c5Tx c5Advances c5Deliveries).moneyProgress
      = specProgressPct (c5Tx.totalAmount.getD 0)
          ((calculateBalances c5Tx c5Advances c5Deliveries).totalAdvances) ∧
    (calculateBalances c5Tx c5Advances c5Deliveries).productProgress
      = specProgressPct (c5Tx.quantity.getD 0)
          ((calculateBalances c5Tx c5Advances c5Deliveries).totalDelivered) :=
  progress_matches_spec c5Tx c5Advances c5Deliveries
    (by intro v hv; simp [c5Tx, calculatedTotal, truthy] at hv; simp [← hv])
    (by intro v hv; simp [c5Tx] at hv; simp [← hv])
    (by simp [calculateBalances, c5Advances]; norm_num)
    (by simp [calculateBalances, c5Deliveries]; norm_num)


/-- Claim C3 (amended): returned transactions and providers are exactly the
caller's records with `updatedAt` strictly greater than the checkpoint
(epoch-zero when `lastSync` is omitted), in both directions; returned general
expenses are exactly those with no parent transaction and `updatedAt` greater
than the checkpoint, with no ownership restriction (the Expense table has no
owner column); visible categories — the defaults plus the caller's — are
returned unconditionally; the response carries the fresh `syncTimestamp`. -/
theorem pull_characterization (u : String) (lastSync : Option Int) (now : Int)
    (db : DB) :
    (∀ t : TransactionRow,
        t ∈ (pullHandler u lastSync now db).2.1.transactions
          ↔ t ∈ db.transactions ∧ t.userId = u ∧
            lastSync.getD 0 < t.updatedAt) ∧
    (∀ p : ProviderRow,
        p ∈ (pullHandler u lastSync now db).2.1.providers
          ↔ p ∈ db.providers ∧ p.userId = some u ∧
            lastSync.getD 0 < p.updatedAt) ∧
    (∀ e : ExpenseRow,
        e ∈ (pullHandler u lastSync now db).2.1.expenses
          ↔ e ∈ db.expenses ∧ e.transactionId = none ∧
            lastSync.getD 0 < e.updatedAt) ∧
    (∀ c : CategoryRow,
        c ∈ (pullHandler u lastSync now db).2.1.categories
          ↔ c ∈ db.categories ∧ (c.isDefault = true ∨ c.userId = some u)) ∧
    (pullHandler u lastSync now db).2.2 = now := by
  refine ⟨?_, ?_, ?_, ?_, rfl⟩ <;> intro x <;>
    simp [pullHandler, List.mem_filter, and_assoc]

/-- A general (transaction-less) expense another user can see: used to refute
C3 as stated. -/
def c3Expense : ExpenseRow :=
  { id := "e1", amount := 5, description := none, expenseDate := 0,
    categoryId := "cat1", transactionId := none, createdAt := 1,
    updatedAt := 5 }

/-- Store holding only the general expense above. -/
def c3DB : DB :=
  { providers := [], transactions := [], advances := [], deliveries := [],
    expenses := [c3Expense], categories := [], syncLogs := [] }

/-- Counterexample to C3 as stated: the pull for user "u2" returns the
general expense although it does not belong to them — the store contains no
transaction of theirs (indeed no record of theirs at all), and the Expense
table carries no owner. -/
theorem pull_returns_foreign_general_expense :
    c3Expense ∈ (pullHandler "u2" none 10 c3DB).2.1.expenses ∧
    ¬ expenseBelongsTo c3DB "u2" c3Expense := by
  constructor
  · simp [pullHandler, c3DB, c3Expense]
  · simp [expenseBelongsTo, c3DB]

/-- Claim C7 (amended): every push call writes exactly one SyncLog row
(appended to the audit trail); on the success path its `recordsCount` is the
total number of submitted records across all three collections and its
status is `success`; when the dispatch fails (the audit-log write throws and
the outer catch runs) the single row has status `failed` and `recordsCount`
0, not the submitted total. -/
theorem push_always_logs_once (u : String) (body : PushBody) (logOk : Bool)
    (db : DB) :
    (pushHandler u body logOk db).1.syncLogs
      = db.syncLogs ++
        [if logOk
         then { userId := u, syncType := "push",
                recordsCount := totalRecords body, status := "success",
                errorMessage := none }
         else { userId := u, syncType := "push", recordsCount := 0,
                status := "failed",
                errorMessage := some "log write failed" }] := by
  obtain ⟨pl, hpl⟩ := pushProviders_shape u body.providers db
  obtain ⟨tl, htl⟩ := pushTransactions_shape u body.transactions
    (pushProviders u body.providers db).1
  cases logOk with
  | true =>
      rw [pushHandler_true_state u body db, htl, hpl]
      rfl
  | false =>
      have hstate : (pushHandler u body false db).1
          = { (pushTransactions u body.transactions
                  (pushProviders u body.providers db).1).1 with
              syncLogs := ((pushTransactions u body.transactions
                  (pushProviders u body.providers db).1).1.syncLogs ++
                [{ userId := u, syncType := "push", recordsCount := 0,
                   status := "failed",
                   errorMessage := some "log write failed" }]) } := rfl
      rw [hstate, htl, hpl]
      rfl

/-- One-provider batch used by the C7 counterexample. -/
def c7Body : PushBody :=
  { transactions := [],
    providers := [{ id := "p7", name := "Seven", email := none,
                    phone := none, address := none, notes := none,
                    createdAt := 1, updatedAt := 2 }],
    expenses := [] }

/-- Counterexample to C7 as stated: a push of a one-record batch whose
dispatch fails writes its single SyncLog row with `recordsCount` 0, not the
submitted total 1. -/
theorem push_failed_log_count_zero :
    (pushHandler "u1" c7Body false emptyDB).1.syncLogs
      = [{ userId := "u1", syncType := "push", recordsCount := 0,
           status := "failed", errorMessage := some "log write failed" }] ∧
    totalRecords c7Body = 1 :=
  ⟨rfl, rfl⟩


/-- Expense record submitted by the C4 failing input. -/
def c4Expense : ExpensePush :=
  { id := "e9", amount := 12, description := none, categoryId := "cat1",
    transactionId := none, createdAt := 1, updatedAt := 2 }

/-- Push body containing exactly one (new) expense record. -/
def c4Body : PushBody :=
  { transactions := [], providers := [], expenses := [c4Expense] }

/-- Claim C4 (code bug): the push route validates, destructures and counts
the `expenses` collection — its swagger contract lists it and the SyncLog
row counts it — but contains no loop over it. Pushing one brand-new expense
record creates nothing, the returned result for the collection is the
untouched `{created: 0, updated: 0, errors: []}` initialization, yet the
SyncLog row reports `recordsCount` 1. -/
theorem push_ignores_expenses :
    (pushHandler "u1" c4Body true emptyDB).1.expenses = [] ∧
    (pushHandler "u1" c4Body true emptyDB).2
      = .ok { transactions := CollResult.empty,
              providers := CollResult.empty,
              expenses := CollResult.empty } ∧
    totalRecords c4Body = 1 ∧
    (pushHandler "u1" c4Body true emptyDB).1.syncLogs
      = [{ userId := "u1", syncType := "push", recordsCount := 1,
           status := "success", errorMessage := none }] :=
  ⟨rfl, rfl, rfl, rfl⟩

/-- Concatenation of per-collection push results. -/
def CollResult.app (a b : CollResult) : CollResult :=
  { created := a.created + b.created, updated := a.updated + b.updated,
    errors := a.errors ++ b.errors }

theorem consInto_app (o : StepOutcome) (r r' : CollResult) :
    (o.consInto r).app r' = o.consInto (r.app r') := by
  cases o <;>
    simp [StepOutcome.consInto, CollResult.app, Nat.add_right_comm]

theorem empty_app (b : CollResult) : CollResult.empty.app b = b := by
  simp [CollResult.app, CollResult.empty]

/-- Splitting a provider batch: final state composes. -/
theorem pushProviders_append_state (u : String) (xs ys : List ProviderPush) :
    ∀ db : DB, (pushProviders u (xs ++ ys) db).1
      = (pushProviders u ys (pushProviders u xs db).1).1 := by
  induction xs with
  | nil => intro db; rfl
  | cons p xs ih =>
      intro db
      rw [List.cons_append, pushProviders_cons, pushProviders_cons]
      exact ih (syncProviderRecord u db p).1

/-- Splitting a provider batch: results compose. -/
theorem pushProviders_append_result (u : String) (xs ys : List ProviderPush) :
    ∀ db : DB, (pushProviders u (xs ++ ys) db).2
      = ((pushProviders u xs db).2).app
          (pushProviders u ys (pushProviders u xs db).1).2 := by
  induction xs with
  | nil => intro db; rw [List.nil_append]; exact (empty_app _).symm
  | cons p xs ih =>
      intro db
      rw [List.cons_append, pushProviders_cons, pushProviders_cons]
      show ((syncProviderRecord u db p).2).consInto
          (pushProviders u (xs ++ ys) (syncProviderRecord u db p).1).2 = _
      rw [ih (syncProviderRecord u db p).1, ← consInto_app]

/-- Splitting a transaction batch: final state composes. -/
theorem pushTransactions_append_state (u : String)
    (xs ys : List TransactionPush) :
    ∀ db : DB, (pushTransactions u (xs ++ ys) db).1
      = (pushTransactions u ys (pushTransactions u xs db).1).1 := by
  induction xs with
  | nil => intro db; rfl
  | cons t xs ih =>
      intro db
      rw [List.cons_append, pushTransactions_cons, pushTransactions_cons]
      exact ih (syncTransactionRecord u db t).1

/-- Splitting a transaction batch: results compose. -/
theorem pushTransactions_append_result (u : String)
    (xs ys : List TransactionPush) :
    ∀ db : DB, (pushTransactions u (xs ++ ys) db).2
      = ((pushTransactions u xs db).2).app
          (pushTransactions u ys (pushTransactions u xs db).1).2 := by
  induction xs with
  | nil => intro db; rw [List.nil_append]; exact (empty_app _).symm
  | cons t xs ih =>
      intro db
      rw [List.cons_append, pushTransactions_cons, pushTransactions_cons]
      show ((syncTransactionRecord u db t).2).consInto
          (pushTransactions u (xs ++ ys) (syncTransactionRecord u db t).1).2
        = _
      rw [ih (syncTransactionRecord u db t).1, ← consInto_app]

/-- Claim C8: a per-record exception anywhere in a push batch is caught and
isolated: the failing record contributes exactly one entry — its id and
message — to its collection's error list, the store is exactly as if the bad
record had not been submitted, the remaining records are applied normally,
and the created/updated counts are unaffected; shown for both the provider
and the transaction collections. -/
theorem push_record_error_isolated (u : String)
    (xs ys : List ProviderPush) (bad : ProviderPush)
    (xt yt : List TransactionPush) (tbad : TransactionPush)
    (db dbt : DB) (msg tmsg : String)
    (hb : (syncProviderRecord u (pushProviders u xs db).1 bad).2
        = .errored bad.id msg)
    (ht : (syncTransactionRecord u (pushTransactions u xt dbt).1 tbad).2
        = .errored tbad.id tmsg) :
    ((pushProviders u (xs ++ bad :: ys) db).1
        = (pushProviders u (xs ++ ys) db).1 ∧
      (pushProviders u (xs ++ bad :: ys) db).2.created
        = (pushProviders u (xs ++ ys) db).2.created ∧
      (pushProviders u (xs ++ bad :: ys) db).2.updated
        = (pushProviders u (xs ++ ys) db).2.updated ∧
      (pushProviders u (xs ++ bad :: ys) db).2.errors
        = ((pushProviders u xs db).2.errors ++ (bad.id, msg) ::
            (pushProviders u ys (pushProviders u xs db).1).2.errors)) ∧
    ((pushTransactions u (xt ++ tbad :: yt) dbt).1
        = (pushTransactions u (xt ++ yt) dbt).1 ∧
      (pushTransactions u (xt ++ tbad :: yt) dbt).2.created
        = (pushTransactions u (xt ++ yt) dbt).2.created ∧
      (pushTransactions u (xt ++ tbad :: yt) dbt).2.updated
        = (pushTransactions u (xt ++ yt) dbt).2.updated ∧
      (pushTransactions u (xt ++ tbad :: yt) dbt).2.errors
        = ((pushTransactions u xt dbt).2.errors ++ (tbad.id, tmsg) ::
            (pushTransactions u yt (pushTransactions u xt dbt).1).2.errors)) := by
  have hbs : (syncProviderRecord u (pushProviders u xs db).1 bad).1
      = (pushProviders u xs db).1 :=
    syncProviderRecord_err_state u (pushProviders u xs db).1 bad
      (by rw [hb]; rfl)
  have hts : (syncTransactionRecord u (pushTransactions u xt dbt).1 tbad).1
      = (pushTransactions u xt dbt).1 :=
    syncTransactionRecord_err_state u (pushTransactions u xt dbt).1 tbad
      (by rw [ht]; rfl)
  refine ⟨⟨?_, ?_, ?_, ?_⟩, ?_, ?_, ?_, ?_⟩
  · rw [pushProviders_append_state, pushProviders_append_state,
      pushProviders_cons, hbs]
  · rw [pushProviders_append_result, pushProviders_append_result,
      pushProviders_cons, hbs, hb]
    rfl
  · rw [pushProviders_append_result, pushProviders_append_result,
      pushProviders_cons, hbs, hb]
    rfl
  · rw [pushProviders_append_result, pushProviders_cons, hbs, hb]
    simp [CollResult.app, StepOutcome.consInto]
  · rw [pushTransactions_append_state, pushTransactions_append_state,
      pushTransactions_cons, hts]
  · rw [pushTransactions_append_result, pushTransactions_append_result,
      pushTransactions_cons, hts, ht]
    rfl
  · rw [pushTransactions_append_result, pushTransactions_append_result,
      pushTransactions_cons, hts, ht]
    rfl
  · rw [pushTransactions_append_result, pushTransactions_cons, hts, ht]
    simp [CollResult.app, StepOutcome.consInto]


/-- A provider owned by another user whose id the C8 witness collides with. -/
def c8Other : ProviderRow :=
  { id := "px", name := "Other", email := none, phone := none,
    address := none, notes := none, userId := some "u2", createdAt := 0,
    updatedAt := 1 }

/-- Store of the C8 witness. -/
def c8DB : DB :=
  { providers := [c8Other], transactions := [], advances := [],
    deliveries := [], expenses := [], categories := [], syncLogs := [] }

/-- The failing record of the C8 witness (id collision with another user). -/
def c8Bad : ProviderPush :=
  { id := "px", name := "Collide", email := none, phone := none,
    address := none, notes := none, createdAt := 0, updatedAt := 9 }

/-- A well-formed record processed after the failing one. -/
def c8Good : ProviderPush :=
  { id := "pg", name := "Good", email := none, phone := none,
    address := none, notes := none, createdAt := 0, updatedAt := 9 }

/-- The failing transaction record of the C8 witness (unresolvable
`providerId`). -/
def c8TxBad : TransactionPush :=
  { id := "tx", contractNumber := "20250101-CCCC", description := none,
    status := .ACTIVE, quantity := none, unitPrice := none,
    totalAmount := none, providerId := "nope", productServiceId := none,
    transactionDate := 0, createdAt := 0, updatedAt := 1 }

/-- Witness for C8 at a concrete batch: the colliding provider record and the
dangling-foreign-key transaction record are isolated as per-record errors
while the rest of the batch is applied. -/
theorem push_record_error_isolated_witness :
    ((pushProviders "u1" ([] ++ c8Bad :: [c8Good]) c8DB).1
        = (pushProviders "u1" ([] ++ [c8Good]) c8DB).1 ∧
      (pushProviders "u1" ([] ++ c8Bad :: [c8Good]) c8DB).2.created
        = (pushProviders "u1" ([] ++ [c8Good]) c8DB).2.created ∧
      (pushProviders "u1" ([] ++ c8Bad :: [c8Good]) c8DB).2.updated
        = (pushProviders "u1" ([] ++ [c8Good]) c8DB).2.updated ∧
      (pushProviders "u1" ([] ++ c8Bad :: [c8Good]) c8DB).2.errors
        = ((pushProviders "u1" [] c8DB).2.errors ++
            (c8Bad.id, "Unique constraint failed on the fields: (id)") ::
            (pushProviders "u1" [c8Good]
              (pushProviders "u1" [] c8DB).1).2.errors)) ∧
    ((pushTransactions "u1" ([] ++ c8TxBad :: []) emptyDB).1
        = (pushTransactions "u1" ([] ++ []) emptyDB).1 ∧
      (pushTransactions "u1" ([] ++ c8TxBad :: []) emptyDB).2.created
        = (pushTransactions "u1" ([] ++ []) emptyDB).2.created ∧
      (pushTransactions "u1" ([] ++ c8TxBad :: []) emptyDB).2.updated
        = (pushTransactions "u1" ([] ++ []) emptyDB).2.updated ∧
      (pushTransactions "u1" ([] ++ c8TxBad :: []) emptyDB).2.errors
        = ((pushTransactions "u1" [] emptyDB).2.errors ++
            (c8TxBad.id,
              "Foreign key constraint failed on the field: providerId") ::
            (pushTransactions "u1" []
              (pushTransactions "u1" [] emptyDB).1).2.errors)) :=
  push_record_error_isolated "u1" [] [c8Good] c8Bad [] [] c8TxBad c8DB emptyDB
    "Unique constraint failed on the fields: (id)"
    "Foreign key constraint failed on the field: providerId"
    (by rfl) (by rfl)

/-- The CLOSED transaction of the C9 scenario. -/
def c9Row : TransactionRow :=
  { id := "t9", contractNumber := "20250101-DDDD", description := none,
    status := .CLOSED, quantity := none, unitPrice := none,
    totalAmount := none, userId := "u1", providerId := "p1",
    productServiceId := none, transactionDate := 0, closedAt := some 50,
    createdAt := 0, updatedAt := 100 }

/-- Store of the C9 scenario: one CLOSED transaction owned by "u1". -/
def c9DB : DB :=
  { providers := [], transactions := [c9Row], advances := [],
    deliveries := [], expenses := [], categories := [], syncLogs := [] }

/-- A client push record for the same transaction with a newer `updatedAt`
and status ACTIVE. -/
def c9Push : TransactionPush :=
  { id := "t9", contractNumber := "20250101-DDDD", description := none,
    status := .ACTIVE, quantity := none, unitPrice := none,
    totalAmount := none, providerId := "p1", productServiceId := none,
    transactionDate := 0, createdAt := 0, updatedAt := 200 }

/-- Push body carrying the reverting record. -/
def c9Body : PushBody :=
  { transactions := [c9Push], providers := [], expenses := [] }

/-- Counterexample to C9 as stated: the sync push's last-write-wins update
writes the client's `status` verbatim, so a CLOSED transaction transitions
back to ACTIVE when the owner pushes a record with a newer `updatedAt`. -/
theorem sync_push_reopens_closed :
    c9Row.status = .CLOSED ∧
    (pushHandler "u1" c9Body true c9DB).1.transactions.map (fun t => t.status)
      = [.ACTIVE] :=
  ⟨rfl, rfl⟩

/-- Claim C9 (amended): through the transaction routes — close, update,
add-advance, add-delivery — a CLOSED transaction never returns to ACTIVE and
never gains money or product movements: close and update leave every CLOSED
row untouched (status moves only ACTIVE→CLOSED), and when every row with the
targeted id is CLOSED, add-advance and add-delivery are rejected with the
state unchanged. The sync push, however, overwrites `status` verbatim under
last-write-wins and can revert CLOSED to ACTIVE (see the counterexample). -/
theorem closed_stays_closed (u tid aid did : String) (now nd : Int)
    (patch : TxPatch) (amt q : Rat) (d1 d2 : Option String) (db : DB)
    (t : TransactionRow) (ht : t ∈ db.transactions)
    (hcl : t.status = .CLOSED)
    (hall : ∀ t' ∈ db.transactions, t'.id = tid → t'.status = .CLOSED) :
    t ∈ (closeTransaction u tid now db).1.transactions ∧
    t ∈ (updateTransactionRoute u tid patch db).1.transactions ∧
    addAdvance u tid aid amt d1 nd db = (db, false) ∧
    addDelivery u tid did q d2 nd db = (db, false) := by
  have hnf : db.transactions.find? (fun x =>
      x.id == tid && x.userId == u && x.status == TxStatus.ACTIVE) = none := by
    apply List.find?_eq_none.mpr
    intro x hx
    by_cases hid : x.id = tid
    · have := hall x hx hid
      simp [this]
    · simp [hid]
  refine ⟨?_, ?_, ?_, ?_⟩
  · have h1 : (closeTransaction u tid now db).1.transactions
        = db.transactions.map (fun x =>
            if x.id == tid && x.userId == u && x.status == TxStatus.ACTIVE
            then { x with status := TxStatus.CLOSED, closedAt := some now }
            else x) := rfl
    rw [h1]
    have hfx : (fun x =>
        if x.id == tid && x.userId == u && x.status == TxStatus.ACTIVE
        then { x with status := TxStatus.CLOSED, closedAt := some now }
        else x) t = t := by
      simp [hcl]
    exact hfx ▸ List.mem_map_of_mem _ ht
  · have h1 : (updateTransactionRoute u tid patch db).1.transactions
        = db.transactions.map (fun x =>
            if x.id == tid && x.userId == u && x.status == TxStatus.ACTIVE
            then applyPatch x patch
            else x) := rfl
    rw [h1]
    have hfx : (fun x =>
        if x.id == tid && x.userId == u && x.status == TxStatus.ACTIVE
        then applyPatch x patch
        else x) t = t := by
      simp [hcl]
    exact hfx ▸ List.mem_map_of_mem _ ht
  · simp [addAdvance, hnf]
  · simp [addDelivery, hnf]

/-- Witness for C9's amended claim at the concrete CLOSED transaction. -/
theorem closed_stays_closed_witness :
    c9Row ∈ (closeTransaction "u1" "t9" 300 c9DB).1.transactions ∧
    c9Row ∈ (updateTransactionRoute "u1" "t9"
        { description := some "d", quantity := none, unitPrice := none,
          totalAmount := none } c9DB).1.transactions ∧
    addAdvance "u1" "t9" "a1" 3 none 300 c9DB = (c9DB, false) ∧
    addDelivery "u1" "t9" "d1" 4 none 300 c9DB = (c9DB, false) :=
  closed_stays_closed "u1" "t9" "a1" "d1" 300 300
    { description := some "d", quantity := none, unitPrice := none,
      totalAmount := none } 3 4 none none c9DB c9Row
    (by simp [c9DB]) (by rfl)
    (by intro t' ht' _; simp [c9DB] at ht'; simp [ht', c9Row])


/-- Members of a list that is pairwise key-distinct are determined by their
key. -/
theorem key_inj_of_pairwise {α : Type} (key : α → String) (l : List α)
    (h : l.Pairwise (fun a b => key a ≠ key b)) :
    ∀ a ∈ l, ∀ b ∈ l, key a = key b → a = b := by
  intro a ha b hb hk
  by_contra hne
  have hsym : Symmetric (fun a b : α => key a ≠ key b) :=
    fun _ _ hab hk' => hab hk'.symm
  exact List.Pairwise.forall hsym h ha hb hne hk

/-- Claim C10: every record created through a push is owned by the caller —
the create writes `userId` from the authenticated request, and the submitted
record carries no owner field the route would read — and a push update fires
only when a record with the submitted id *and* the caller's userId exists;
rows not owned by the caller are never mutated or removed, and an id
collision with another user's record yields a per-record error instead of a
create or an overwrite. Stated for both the provider and the transaction
collections, under the primary-key invariant of each table. -/
theorem push_ownership (u : String) (p : ProviderPush) (t : TransactionPush)
    (db : DB) (hup : providerIdsUnique db) (hut : transactionIdsUnique db) :
    ((syncProviderRecord u db p).2 = .created →
      (syncProviderRecord u db p).1.providers
          = db.providers ++ [newProviderRow u p] ∧
        (newProviderRow u p).userId = some u) ∧
    ((syncProviderRecord u db p).2 = .updated →
      ∃ e ∈ db.providers, e.id = p.id ∧ e.userId = some u) ∧
    (∀ r ∈ db.providers, r.userId ≠ some u →
      r ∈ (syncProviderRecord u db p).1.providers) ∧
    ((∃ r ∈ db.providers, r.id = p.id) →
      (∀ r ∈ db.providers, r.id = p.id → r.userId ≠ some u) →
      syncProviderRecord u db p
        = (db, .errored p.id "Unique constraint failed on the fields: (id)")) ∧
    ((syncTransactionRecord u db t).2 = .created →
      (syncTransactionRecord u db t).1.transactions
          = db.transactions ++ [newTransactionRow u t] ∧
        (newTransactionRow u t).userId = u) ∧
    ((syncTransactionRecord u db t).2 = .updated →
      ∃ e ∈ db.transactions, e.id = t.id ∧ e.userId = u) ∧
    (∀ r ∈ db.transactions, r.userId ≠ u →
      r ∈ (syncTransactionRecord u db t).1.transactions) ∧
    ((∃ r ∈ db.transactions, r.id = t.id) →
      (∀ r ∈ db.transactions, r.id = t.id → r.userId ≠ u) →
      syncTransactionRecord u db t
        = (db, .errored t.id "Unique constraint failed on the fields: (id)"))
    := by
  refine ⟨?_, ?_, ?_, ?_, ?_, ?_, ?_, ?_⟩
  · -- provider create: appended row owned by the caller
    intro hc
    cases hf : findProvider db p.id u with
    | some e =>
        by_cases hlt : e.updatedAt < p.updatedAt
        · rw [syncProviderRecord_eq_update u db p e hf hlt] at hc
          exact absurd hc (by simp)
        · rw [syncProviderRecord_eq_skip u db p e hf hlt] at hc
          exact absurd hc (by simp)
    | none =>
        by_cases hany : db.providers.any (fun r => r.id == p.id) = true
        · rw [syncProviderRecord_eq_err u db p hf hany] at hc
          exact absurd hc (by simp)
        · rw [syncProviderRecord_eq_create u db p hf hany]
          exact ⟨rfl, rfl⟩
  · -- provider update: an owned row with that id exists
    intro hc
    cases hf : findProvider db p.id u with
    | some e =>
        by_cases hlt : e.updatedAt < p.updatedAt
        · have hf' : db.providers.find?
              (fun r => r.id == p.id && r.userId == some u) = some e := hf
          have hpe := find_pred (fun r => r.id == p.id && r.userId == some u)
            db.providers e hf'
          refine ⟨e, find_mem _ _ _ hf', ?_, ?_⟩
          · exact of_decide_eq_true
              (by simpa using ((Bool.and_eq_true _ _).mp hpe).1)
          · have := ((Bool.and_eq_true _ _).mp hpe).2
            simpa using this
        · rw [syncProviderRecord_eq_skip u db p e hf hlt] at hc
          exact absurd hc (by simp)
    | none =>
        by_cases hany : db.providers.any (fun r => r.id == p.id) = true
        · rw [syncProviderRecord_eq_err u db p hf hany] at hc
          exact absurd hc (by simp)
        · rw [syncProviderRecord_eq_create u db p hf hany] at hc
          exact absurd hc (by simp)
  · -- foreign rows survive any provider step
    intro r hr hru
    cases hf : findProvider db p.id u with
    | some e =>
        by_cases hlt : e.updatedAt < p.updatedAt
        · rw [syncProviderRecord_eq_update u db p e hf hlt]
          have hf' : db.providers.find?
              (fun r => r.id == p.id && r.userId == some u) = some e := hf
          have hpe := find_pred (fun r => r.id == p.id && r.userId == some u)
            db.providers e hf'
          have heid : e.id = p.id := of_decide_eq_true
            (by simpa using ((Bool.and_eq_true _ _).mp hpe).1)
          have heu : e.userId = some u := by
            have := ((Bool.and_eq_true _ _).mp hpe).2
            simpa using this
          have hrid : ¬ r.id = p.id := by
            intro hrp
            have : r = e := key_inj_of_pairwise
              (fun x : ProviderRow => x.id) db.providers
              hup r hr e (find_mem _ _ _ hf') (hrp.trans heid.symm)
            rw [this] at hru
            exact hru heu
          have hfx : (fun x => if x.id == p.id then applyProviderUpdate x p
              else x) r = r := by
            simp [hrid]
          show r ∈ providerUpdateList db.providers p
          exact hfx ▸ List.mem_map_of_mem _ hr
        · rw [syncProviderRecord_eq_skip u db p e hf hlt]
          exact hr
    | none =>
        by_cases hany : db.providers.any (fun r => r.id == p.id) = true
        · rw [syncProviderRecord_eq_err u db p hf hany]
          exact hr
        · rw [syncProviderRecord_eq_create u db p hf hany]
          exact List.mem_append_left _ hr
  · -- id collision with a foreign row: per-record error
    intro hex hforeign
    obtain ⟨r, hr, hrid⟩ := hex
    have hf : findProvider db p.id u = none := by
      apply List.find?_eq_none.mpr
      intro x hx
      by_cases hid : x.id = p.id
      · have := hforeign x hx hid
        simp [hid, this]
      · simp [hid]
    have hany : db.providers.any (fun x => x.id == p.id) = true :=
      List.any_eq_true.mpr ⟨r, hr, by simp [hrid]⟩
    exact syncProviderRecord_eq_err u db p hf hany
  · -- transaction create: appended row owned by the caller
    intro hc
    cases hf : findTransaction db t.id u with
    | some e =>
        by_cases hlt : e.updatedAt < t.updatedAt
        · rw [syncTransactionRecord_eq_update u db t e hf hlt] at hc
          exact absurd hc (by simp)
        · rw [syncTransactionRecord_eq_skip u db t e hf hlt] at hc
          exact absurd hc (by simp)
    | none =>
        by_cases hany : db.transactions.any (fun r => r.id == t.id) = true
        · rw [syncTransactionRecord_eq_err_pk u db t hf hany] at hc
          exact absurd hc (by simp)
        · by_cases hfk : db.providers.any
              (fun r => r.id == t.providerId) = true
          · rw [syncTransactionRecord_eq_create u db t hf hany hfk]
            exact ⟨rfl, rfl⟩
          · rw [syncTransactionRecord_eq_err_fk u db t hf hany hfk] at hc
            exact absurd hc (by simp)
  · -- transaction update: an owned row with that id exists
    intro hc
    cases hf : findTransaction db t.id u with
    | some e =>
        by_cases hlt : e.updatedAt < t.updatedAt
        · have hf' : db.transactions.find?
              (fun r => r.id == t.id && r.userId == u) = some e := hf
          have hpe := find_pred (fun r => r.id == t.id && r.userId == u)
            db.transactions e hf'
          refine ⟨e, find_mem _ _ _ hf', ?_, ?_⟩
          · exact of_decide_eq_true
              (by simpa using ((Bool.and_eq_true _ _).mp hpe).1)
          · have := ((Bool.and_eq_true _ _).mp hpe).2
            simpa using this
        · rw [syncTransactionRecord_eq_skip u db t e hf hlt] at hc
          exact absurd hc (by simp)
    | none =>
        by_cases hany : db.transactions.any (fun r => r.id == t.id) = true
        · rw [syncTransactionRecord_eq_err_pk u db t hf hany] at hc
          exact absurd hc (by simp)
        · by_cases hfk : db.providers.any
              (fun r => r.id == t.providerId) = true
          · rw [syncTransactionRecord_eq_create u db t hf hany hfk] at hc
            exact absurd hc (by simp)
          · rw [syncTransactionRecord_eq_err_fk u db t hf hany hfk] at hc
            exact absurd hc (by simp)
  · -- foreign rows survive any transaction step
    intro r hr hru
    cases hf : findTransaction db t.id u with
    | some e =>
        by_cases hlt : e.updatedAt < t.updatedAt
        · rw [syncTransactionRecord_eq_update u db t e hf hlt]
          have hf' : db.transactions.find?
              (fun r => r.id == t.id && r.userId == u) = some e := hf
          have hpe := find_pred (fun r => r.id == t.id && r.userId == u)
            db.transactions e hf'
          have heid : e.id = t.id := of_decide_eq_true
            (by simpa using ((Bool.and_eq_true _ _).mp hpe).1)
          have heu : e.userId = u := by
            have := ((Bool.and_eq_true _ _).mp hpe).2
            simpa using this
          have hrid : ¬ r.id = t.id := by
            intro hrp
            have : r = e := key_inj_of_pairwise
              (fun x : TransactionRow => x.id)
              db.transactions hut r hr e (find_mem _ _ _ hf')
              (hrp.trans heid.symm)
            rw [this] at hru
            exact hru heu
          have hfx : (fun x => if x.id == t.id then applyTransactionUpdate x t
              else x) r = r := by
            simp [hrid]
          show r ∈ transactionUpdateList db.transactions t
          exact hfx ▸ List.mem_map_of_mem _ hr
        · rw [syncTransactionRecord_eq_skip u db t e hf hlt]
          exact hr
    | none =>
        by_cases hany : db.transactions.any (fun r => r.id == t.id) = true
        · rw [syncTransactionRecord_eq_err_pk u db t hf hany]
          exact hr
        · by_cases hfk : db.providers.any
              (fun r => r.id == t.providerId) = true
          · rw [syncTransactionRecord_eq_create u db t hf hany hfk]
            exact List.mem_append_left _ hr
          · rw [syncTransactionRecord_eq_err_fk u db t hf hany hfk]
            exact hr
  · -- id collision with a foreign row: per-record error
    intro hex hforeign
    obtain ⟨r, hr, hrid⟩ := hex
    have hf : findTransaction db t.id u = none := by
      apply List.find?_eq_none.mpr
      intro x hx
      by_cases hid : x.id = t.id
      · have := hforeign x hx hid
        simp [hid, this]
      · simp [hid]
    have hany : db.transactions.any (fun x => x.id == t.id) = true :=
      List.any_eq_true.mpr ⟨r, hr, by simp [hrid]⟩
    exact syncTransactionRecord_eq_err_pk u db t hf hany


/-- A provider owned by "u2" whose id the C10 witness collides with. -/
def c10ProvRow : ProviderRow :=
  { id := "qx", name := "Foreign", email := none, phone := none,
    address := none, notes := none, userId := some "u2", createdAt := 0,
    updatedAt := 1 }

/-- A transaction owned by "u2" whose id the C10 witness collides with. -/
def c10TxRow : TransactionRow :=
  { id := "qt", contractNumber := "20250101-EEEE", description := none,
    status := .ACTIVE, quantity := none, unitPrice := none,
    totalAmount := none, userId := "u2", providerId := "qx",
    productServiceId := none, transactionDate := 0, closedAt := none,
    createdAt := 0, updatedAt := 1 }

/-- Store of the C10 witness. -/
def c10DB : DB :=
  { providers := [c10ProvRow], transactions := [c10TxRow], advances := [],
    deliveries := [], expenses := [], categories := [], syncLogs := [] }

/-- Push record of user "u1" colliding with the foreign provider id. -/
def c10Prov : ProviderPush :=
  { id := "qx", name := "Mine", email := none, phone := none,
    address := none, notes := none, createdAt := 0, updatedAt := 9 }

/-- Push record of user "u1" colliding with the foreign transaction id. -/
def c10Tx : TransactionPush :=
  { id := "qt", contractNumber := "20250101-FFFF", description := none,
    status := .ACTIVE, quantity := none, unitPrice := none,
    totalAmount := none, providerId := "qx", productServiceId := none,
    transactionDate := 0, createdAt := 0, updatedAt := 9 }

/-- Witness for C10: pushing records whose ids belong to another user yields
per-record errors and leaves the foreign rows in place. -/
theorem push_ownership_witness :
    syncProviderRecord "u1" c10DB c10Prov
      = (c10DB,
         .errored "qx" "Unique constraint failed on the fields: (id)") ∧
    syncTransactionRecord "u1" c10DB c10Tx
      = (c10DB,
         .errored "qt" "Unique constraint failed on the fields: (id)") ∧
    c10ProvRow ∈ (syncProviderRecord "u1" c10DB c10Prov).1.providers ∧
    c10TxRow ∈ (syncTransactionRecord "u1" c10DB c10Tx).1.transactions := by
  have H := push_ownership "u1" c10Prov c10Tx c10DB
    (by simp [providerIdsUnique, c10DB])
    (by simp [transactionIdsUnique, c10DB])
  refine ⟨?_, ?_, ?_, ?_⟩
  · exact H.2.2.2.1 ⟨c10ProvRow, by simp [c10DB], rfl⟩
      (by intro r hr _; simp [c10DB] at hr; simp [hr, c10ProvRow])
  · exact H.2.2.2.2.2.2.2 ⟨c10TxRow, by simp [c10DB], rfl⟩
      (by intro r hr _; simp [c10DB] at hr; simp [hr, c10TxRow])
  · exact H.2.2.1 c10ProvRow (by simp [c10DB]) (by simp [c10ProvRow])
  · exact H.2.2.2.2.2.2.1 c10TxRow (by simp [c10DB]) (by simp [c10TxRow])


end VraenApp
